import Mathlib

/-! CS372CPS: the Shape library (`Shape.hpp`, `Shape.cpp`)

A shallow embedding of the shape classes and of their three queries
`getHeight`, `getWidth` and `getPostScript`.

* `double` is an arbitrary linearly ordered field `α`: the definitions run
  on `ℚ` and are read on `ℝ` where a statement is about real dimensions.
* `<cmath>`'s `cos`, `sin` and `std::numbers::pi` are the fields of a
  record `Cmath α` every trigonometric computation takes as a parameter.
* `int` arithmetic is two's complement on 32 bits (`wrapInt`).
* `std::string` values are lists of pieces: a string literal of the source,
  or the place where `std::to_string` prints a `double`.
* A `ShapePtr` is used only through the three `const` queries of the
  abstract class `Shape`, none of which takes an argument; an object behind
  a `ShapePtr` is the record of the three values its overriders return.
* The operators of a text are read off its tokens, the words between white
  space, a printed number being an opaque part of a word.
-/

namespace CS372CPS

/-- One piece of a `std::string` the library builds: a literal of the source
text, or `std::to_string(x)` for a `double` `x`. -/
inductive Piece (α : Type) where
  | lit (s : String)
  | num (x : α)
  deriving DecidableEq, Repr

/-- A `std::string`: `+` and `+=` are list append. -/
abbrev Text (α : Type) := List (Piece α)

/-- The names `Shape.cpp` takes from `<cmath>` and `<numbers>`. -/
structure Cmath (α : Type) where
  pi : α
  cos : α → α
  sin : α → α

/-- Class `Shape` (`Shape.hpp` 15-21): the three pure virtual queries. -/
structure Shape (α : Type) where
  getHeight : α
  getWidth : α
  getPostScript : Text α

/-- The handle `ShapePtr = std::shared_ptr<Shape>`. -/
abbrev ShapePtr (α : Type) := Shape α

/-- The value of an `int` expression: reduction to 32 bits, two's
complement. Signed overflow, which the language leaves undefined, is taken
as the wrap-around the usual targets compute. -/
def wrapInt (x : Int) : Int := (x + 2147483648) % 4294967296 - 2147483648

/-! ## CompoundShape (`Shape.hpp` 24-40, `Shape.cpp` 12-44) -/

/-- Class `CompoundShape`: its private member `_shapes`. -/
structure CompoundShape (α : Type) where
  _shapes : List (ShapePtr α)

/-- The implicit default constructor of `CompoundShape`: `_shapes` is
default-initialised, an empty vector. -/
def CompoundShape.new {α : Type} : CompoundShape α := { _shapes := [] }

/-- `CompoundShape::getShapes` (`Shape.cpp` 42-44). -/
def CompoundShape.getShapes {α : Type} (self : CompoundShape α) : List (ShapePtr α) :=
  self._shapes

/-- `CompoundShape::getHeight` (`Shape.cpp` 12-18). The loop body is the
expression statement `combinedHeight(height, shape);`: the call is evaluated
and its value dropped, `height` is not assigned. -/
def CompoundShape.getHeight {α : Type} [Zero α] (combinedHeight : α → ShapePtr α → α)
    (self : CompoundShape α) : α :=
  self.getShapes.foldl
    (fun height shape => let _discarded := combinedHeight height shape; height) 0

/-- `CompoundShape::getWidth` (`Shape.cpp` 20-26), with the same expression
statement `combinedWidth(width, shape);`. -/
def CompoundShape.getWidth {α : Type} [Zero α] (combinedWidth : α → ShapePtr α → α)
    (self : CompoundShape α) : α :=
  self.getShapes.foldl
    (fun width shape => let _discarded := combinedWidth width shape; width) 0

/-- `CompoundShape::generatePostScript` (`Shape.cpp` 38-40); the index is
one the loop of `getPostScript` produces, below `getShapes().size()`. -/
def CompoundShape.generatePostScript {α : Type} (self : CompoundShape α)
    (i : Fin self.getShapes.length) : Text α :=
  (self.getShapes.get i).getPostScript

/-- `CompoundShape::getPostScript` (`Shape.cpp` 28-36): `i` runs from `0`
to `getShapes().size() - 1`. -/
def CompoundShape.getPostScript {α : Type} (self : CompoundShape α)
    (moveToPositionForShape : Fin self.getShapes.length → Text α) : Text α :=
  let ps : Text α := [Piece.lit "gsave\n"]
  let ps := (List.finRange self.getShapes.length).foldl
    (fun ps i => (ps ++ moveToPositionForShape i) ++ self.generatePostScript i) ps
  ps ++ [Piece.lit "grestore\n"]

/-! ## Primitive shapes (`Shape.cpp` 46-145) -/

/-- Class `Circle` (`Shape.hpp` 42-51). -/
structure Circle (α : Type) where
  _radius : α

/-- `Circle::getHeight` (`Shape.cpp` 49-51). -/
def Circle.getHeight {α : Type} [LinearOrderedField α] (self : Circle α) : α :=
  2 * self._radius

/-- `Circle::getWidth` (`Shape.cpp` 53-55). -/
def Circle.getWidth {α : Type} [LinearOrderedField α] (self : Circle α) : α :=
  2 * self._radius

/-- `Circle::getPostScript` (`Shape.cpp` 57-59). -/
def Circle.getPostScript {α : Type} (self : Circle α) : Text α :=
  [Piece.lit "gsave currentpoint translate newpath 0 0 ", Piece.num self._radius,
   Piece.lit " 0 360 arc closepath stroke grestore\n"]

/-- A `Circle` seen through the `Shape` interface. -/
def Circle.toShape {α : Type} [LinearOrderedField α] (self : Circle α) : Shape α :=
  { getHeight := self.getHeight, getWidth := self.getWidth,
    getPostScript := self.getPostScript }

/-- Class `Rectangle` (`Shape.hpp` 53-63). -/
structure Rectangle (α : Type) where
  _width : α
  _height : α

/-- `Rectangle::getHeight` (`Shape.cpp` 64-66). -/
def Rectangle.getHeight {α : Type} (self : Rectangle α) : α := self._height

/-- `Rectangle::getWidth` (`Shape.cpp` 68-70). -/
def Rectangle.getWidth {α : Type} (self : Rectangle α) : α := self._width

/-- `Rectangle::getPostScript` (`Shape.cpp` 72-89). -/
def Rectangle.getPostScript {α : Type} [LinearOrderedField α] (self : Rectangle α) : Text α :=
  let output : Text α := [Piece.lit "gsave\n"]
  let output := output ++ [Piece.num (-self.getWidth / 2), Piece.lit " "]
  let output := output ++ [Piece.num (-self.getHeight / 2), Piece.lit " rmoveto\n"]
  let output := output ++ [Piece.num self.getWidth, Piece.lit " 0 rlineto\n"]
  let output := output ++ [Piece.lit " 0 ", Piece.num self.getHeight, Piece.lit " rlineto\n"]
  let output := output ++ [Piece.lit "-", Piece.num self.getWidth, Piece.lit " 0 rlineto\n"]
  output ++ [Piece.lit "closepath\nstroke\ngrestore\n"]

/-- A `Rectangle` seen through the `Shape` interface. -/
def Rectangle.toShape {α : Type} [LinearOrderedField α] (self : Rectangle α) : Shape α :=
  { getHeight := self.getHeight, getWidth := self.getWidth,
    getPostScript := self.getPostScript }

/-- Class `Spacer` (`Shape.hpp` 65-75). -/
structure Spacer (α : Type) where
  _width : α
  _height : α

/-- `Spacer::getHeight` (`Shape.cpp` 94-96). -/
def Spacer.getHeight {α : Type} (self : Spacer α) : α := self._height

/-- `Spacer::getWidth` (`Shape.cpp` 98-100). -/
def Spacer.getWidth {α : Type} (self : Spacer α) : α := self._width

/-- `Spacer::getPostScript` (`Shape.cpp` 102-104): the empty string. -/
def Spacer.getPostScript {α : Type} (_self : Spacer α) : Text α := []

/-- A `Spacer` seen through the `Shape` interface. -/
def Spacer.toShape {α : Type} (self : Spacer α) : Shape α :=
  { getHeight := self.getHeight, getWidth := self.getWidth,
    getPostScript := self.getPostScript }

/-- Class `Polygon` (`Shape.hpp` 77-87); `_numSides` is an `int`. -/
structure Polygon (α : Type) where
  _numSides : Int
  _sideLength : α

/-- `Polygon::getHeight` (`Shape.cpp` 109-113). `%` on `int` truncates
towards zero; `pi / _numSides` converts the `int` to `double`. -/
def Polygon.getHeight {α : Type} [LinearOrderedField α] (m : Cmath α) (self : Polygon α) : α :=
  if Int.tmod self._numSides 2 = 0 then
    self._sideLength * m.cos (m.pi / (self._numSides : α)) / m.sin (m.pi / (self._numSides : α))
  else
    self._sideLength * (1 + m.cos (m.pi / (self._numSides : α)))
      / (2 * m.sin (m.pi / (self._numSides : α)))

/-- `Polygon::getWidth` (`Shape.cpp` 115-121). In the last branch
`_numSides - 1` and `2 * _numSides` are `int` expressions, converted to
`double` after they are computed. -/
def Polygon.getWidth {α : Type} [LinearOrderedField α] (m : Cmath α) (self : Polygon α) : α :=
  if Int.tmod self._numSides 4 = 0 then
    self._sideLength * m.cos (m.pi / (self._numSides : α)) / m.sin (m.pi / (self._numSides : α))
  else if Int.tmod self._numSides 2 = 0 then
    self._sideLength / m.sin (m.pi / (self._numSides : α))
  else
    self._sideLength
        * m.sin (m.pi * ((wrapInt (self._numSides - 1) : Int) : α)
                  / ((wrapInt (2 * self._numSides) : Int) : α))
      / m.sin (m.pi / (self._numSides : α))

/-- The body of the `for` loop of `Polygon::getPostScript` (`Shape.cpp`
132-135) at counter `i`; `i * 2` is an `int` expression. -/
def Polygon.lineTo {α : Type} [LinearOrderedField α] (m : Cmath α) (self : Polygon α)
    (i : Int) : Text α :=
  let current_direction : α := ((wrapInt (i * 2) : Int) : α) * m.pi / (self._numSides : α)
  let next_x := self._sideLength * m.cos current_direction
  let next_y := self._sideLength * m.sin current_direction
  [Piece.num next_x, Piece.lit " ", Piece.num next_y, Piece.lit " rlineto\n"]

/-- `Polygon::getPostScript` (`Shape.cpp` 123-139): the counter `i` takes
the values `0, 1, ...` below the `int` `_numSides - 1`. -/
def Polygon.getPostScript {α : Type} [LinearOrderedField α] (m : Cmath α) (self : Polygon α) :
    Text α :=
  let output : Text α := [Piece.lit "gsave\n"]
  let output := output ++ [Piece.num (-self._sideLength / 2), Piece.lit " "]
  let output := output ++ [Piece.num (-self.getHeight m / 2)]
  let output := output ++ [Piece.lit " rmoveto\n"]
  let output := (List.range (wrapInt (self._numSides - 1)).toNat).foldl
    (fun output i => output ++ self.lineTo m (i : Int)) output
  output ++ [Piece.lit "closepath\nstroke\ngrestore\n"]

/-- A `Polygon` seen through the `Shape` interface. -/
def Polygon.toShape {α : Type} [LinearOrderedField α] (m : Cmath α) (self : Polygon α) :
    Shape α :=
  { getHeight := self.getHeight m, getWidth := self.getWidth m,
    getPostScript := self.getPostScript m }

/-- `Square::Square` (`Shape.cpp` 141-142): a `Polygon(4, sideLength)`. -/
def Square.new {α : Type} (sideLength : α) : Polygon α :=
  { _numSides := 4, _sideLength := sideLength }

/-- `Triangle::Triangle` (`Shape.cpp` 144-145): a `Polygon(3, sideLength)`. -/
def Triangle.new {α : Type} (sideLength : α) : Polygon α :=
  { _numSides := 3, _sideLength := sideLength }

/-- The local `current_direction` of the loop of `Polygon::getPostScript`
(`Shape.cpp` 132) at counter `i`. -/
def Polygon.current_direction {α : Type} [LinearOrderedField α] (m : Cmath α)
    (self : Polygon α) (i : Int) : α :=
  ((wrapInt (i * 2) : Int) : α) * m.pi / (self._numSides : α)

/-- The local `next_x` of the loop of `Polygon::getPostScript` (`Shape.cpp`
133) at counter `i`: the horizontal part of the `i`-th `rlineto`. -/
def Polygon.next_x {α : Type} [LinearOrderedField α] (m : Cmath α) (self : Polygon α)
    (i : Int) : α :=
  self._sideLength * m.cos (self.current_direction m i)

/-- The local `next_y` of the loop of `Polygon::getPostScript` (`Shape.cpp`
134) at counter `i`: the vertical part of the `i`-th `rlineto`. -/
def Polygon.next_y {α : Type} [LinearOrderedField α] (m : Cmath α) (self : Polygon α)
    (i : Int) : α :=
  self._sideLength * m.sin (self.current_direction m i)

/-- The text the rendering rule of the specification describes for a polygon
of `n` sides of length `s` and reported height `height`: `"gsave\n"`, a
relative move by `(-s/2, -height/2)`, then for `i = 0, ..., n-2` a relative
line by `(s*cos(i*2*pi/n), s*sin(i*2*pi/n))`, and
`"closepath\nstroke\ngrestore\n"`. -/
def Polygon.describedPostScript {α : Type} [LinearOrderedField α] (m : Cmath α) (n : Int)
    (s height : α) : Text α :=
  [Piece.lit "gsave\n", Piece.num (-s / 2), Piece.lit " ", Piece.num (-height / 2),
    Piece.lit " rmoveto\n"]
  ++ (List.range (n - 1).toNat).flatMap
      (fun i => [Piece.num (s * m.cos ((i : α) * 2 * m.pi / (n : α))), Piece.lit " ",
        Piece.num (s * m.sin ((i : α) * 2 * m.pi / (n : α))), Piece.lit " rlineto\n"])
  ++ [Piece.lit "closepath\nstroke\ngrestore\n"]

/-! ## Decorators (`Shape.cpp` 147-191) -/

/-- Class `ScaledShape` (`Shape.hpp` 99-109). -/
structure ScaledShape (α : Type) where
  _shape : ShapePtr α
  _xScale : α
  _yScale : α

/-- `ScaledShape::getHeight` (`Shape.cpp` 151-153). -/
def ScaledShape.getHeight {α : Type} [LinearOrderedField α] (self : ScaledShape α) : α :=
  self._yScale * self._shape.getHeight

/-- `ScaledShape::getWidth` (`Shape.cpp` 155-157). -/
def ScaledShape.getWidth {α : Type} [LinearOrderedField α] (self : ScaledShape α) : α :=
  self._xScale * self._shape.getWidth

/-- `ScaledShape::getPostScript` (`Shape.cpp` 159-161): `std::string()`. -/
def ScaledShape.getPostScript {α : Type} (_self : ScaledShape α) : Text α := []

/-- A `ScaledShape` seen through the `Shape` interface. -/
def ScaledShape.toShape {α : Type} [LinearOrderedField α] (self : ScaledShape α) : Shape α :=
  { getHeight := self.getHeight, getWidth := self.getWidth,
    getPostScript := self.getPostScript }

/-- The enumeration `Rot` (`Shape.hpp` 111). -/
inductive Rot where
  | R90
  | R180
  | R270
  deriving DecidableEq, Repr

/-- Class `RotatedShape` (`Shape.hpp` 113-123). -/
structure RotatedShape (α : Type) where
  _shape : ShapePtr α
  _rotation : Rot

/-- `RotatedShape::getHeight` (`Shape.cpp` 166-170). -/
def RotatedShape.getHeight {α : Type} (self : RotatedShape α) : α :=
  if self._rotation = Rot.R180 then self._shape.getHeight else self._shape.getWidth

/-- `RotatedShape::getWidth` (`Shape.cpp` 172-176). -/
def RotatedShape.getWidth {α : Type} (self : RotatedShape α) : α :=
  if self._rotation = Rot.R180 then self._shape.getWidth else self._shape.getHeight

/-- `RotatedShape::getPostScript` (`Shape.cpp` 178-191). -/
def RotatedShape.getPostScript {α : Type} (self : RotatedShape α) : Text α :=
  let output : Text α := [Piece.lit "gsave\n"]
  let output :=
    if self._rotation = Rot.R90 then output ++ [Piece.lit "90"]
    else if self._rotation = Rot.R180 then output ++ [Piece.lit "180"]
    else if self._rotation = Rot.R270 then output ++ [Piece.lit "270"]
    else output
  let output := output ++ [Piece.lit " rotate\n"]
  let output := output ++ self._shape.getPostScript
  output ++ [Piece.lit "grestore\n"]

/-- A `RotatedShape` seen through the `Shape` interface. -/
def RotatedShape.toShape {α : Type} (self : RotatedShape α) : Shape α :=
  { getHeight := self.getHeight, getWidth := self.getWidth,
    getPostScript := self.getPostScript }

/-! ## The three compound policies (`Shape.hpp` 125-162, `Shape.cpp` 193-243)

Each derived class declares a private member `_shapes` of its own next to
the one of its base `CompoundShape`, and its constructor initialises that
member: `: _shapes(shapes)`. The base subobject is default-constructed. -/

/-- Class `LayeredShape` (`Shape.hpp` 125-136): the `CompoundShape` base
subobject and the member `_shapes` the class declares itself. -/
structure LayeredShape (α : Type) where
  toCompoundShape : CompoundShape α
  _shapes : List (ShapePtr α)

/-- `LayeredShape::LayeredShape` (`Shape.cpp` 193-194). -/
def LayeredShape.new {α : Type} (shapes : List (ShapePtr α)) : LayeredShape α :=
  { toCompoundShape := CompoundShape.new, _shapes := shapes }

/-- `LayeredShape::moveToPositionForShape` (`Shape.cpp` 196-198). -/
def LayeredShape.moveToPositionForShape {α : Type} (self : LayeredShape α)
    (_i : Fin self.toCompoundShape.getShapes.length) : Text α :=
  [Piece.lit "0 0 rmoveto\n"]

/-- `LayeredShape::combinedHeight` (`Shape.cpp` 200-202). -/
def LayeredShape.combinedHeight {α : Type} [LinearOrderedField α]
    (height : α) (shape : ShapePtr α) : α :=
  max height shape.getHeight

/-- `LayeredShape::combinedWidth` (`Shape.cpp` 204-206). -/
def LayeredShape.combinedWidth {α : Type} [LinearOrderedField α]
    (width : α) (shape : ShapePtr α) : α :=
  max width shape.getHeight

/-- `getHeight` of a `LayeredShape`: `CompoundShape::getHeight` with the
class's overrider of `combinedHeight`. -/
def LayeredShape.getHeight {α : Type} [LinearOrderedField α] (self : LayeredShape α) : α :=
  self.toCompoundShape.getHeight LayeredShape.combinedHeight

/-- `getWidth` of a `LayeredShape`. -/
def LayeredShape.getWidth {α : Type} [LinearOrderedField α] (self : LayeredShape α) : α :=
  self.toCompoundShape.getWidth LayeredShape.combinedWidth

/-- `getPostScript` of a `LayeredShape`. -/
def LayeredShape.getPostScript {α : Type} (self : LayeredShape α) : Text α :=
  self.toCompoundShape.getPostScript self.moveToPositionForShape

/-- A `LayeredShape` seen through the `Shape` interface. -/
def LayeredShape.toShape {α : Type} [LinearOrderedField α] (self : LayeredShape α) : Shape α :=
  { getHeight := self.getHeight, getWidth := self.getWidth,
    getPostScript := self.getPostScript }

/-- Class `VerticalShape` (`Shape.hpp` 138-149). -/
structure VerticalShape (α : Type) where
  toCompoundShape : CompoundShape α
  _shapes : List (ShapePtr α)

/-- `VerticalShape::VerticalShape` (`Shape.cpp` 208-209). -/
def VerticalShape.new {α : Type} (shapes : List (ShapePtr α)) : VerticalShape α :=
  { toCompoundShape := CompoundShape.new, _shapes := shapes }

/-- `VerticalShape::combinedHeight` (`Shape.cpp` 218-220). -/
def VerticalShape.combinedHeight {α : Type} (_height : α) (shape : ShapePtr α) : α :=
  shape.getHeight

/-- `VerticalShape::combinedWidth` (`Shape.cpp` 222-224). -/
def VerticalShape.combinedWidth {α : Type} [LinearOrderedField α]
    (width : α) (shape : ShapePtr α) : α :=
  max width shape.getHeight

/-- `getHeight` of a `VerticalShape`. -/
def VerticalShape.getHeight {α : Type} [LinearOrderedField α] (self : VerticalShape α) : α :=
  self.toCompoundShape.getHeight VerticalShape.combinedHeight

/-- `getWidth` of a `VerticalShape`. -/
def VerticalShape.getWidth {α : Type} [LinearOrderedField α] (self : VerticalShape α) : α :=
  self.toCompoundShape.getWidth VerticalShape.combinedWidth

/-- `VerticalShape::moveToPositionForShape` (`Shape.cpp` 211-216), at an
index below `getShapes().size()`. -/
def VerticalShape.moveToPositionForShape {α : Type} [LinearOrderedField α]
    (self : VerticalShape α) (i : Fin self.toCompoundShape.getShapes.length) : Text α :=
  if i.val = 0 then
    [Piece.lit "0 ",
     Piece.num ((self.toCompoundShape.getShapes.get i).getHeight / 2 - self.getHeight / 2),
     Piece.lit " rmoveto\n"]
  else
    [Piece.lit "0 ",
     Piece.num ((self.toCompoundShape.getShapes.get i).getHeight / 2
       + (self.toCompoundShape.getShapes.get ⟨i.val - 1, by omega⟩).getHeight / 2),
     Piece.lit " rmoveto\n"]

/-- `getPostScript` of a `VerticalShape`. -/
def VerticalShape.getPostScript {α : Type} [LinearOrderedField α] (self : VerticalShape α) :
    Text α :=
  self.toCompoundShape.getPostScript self.moveToPositionForShape

/-- A `VerticalShape` seen through the `Shape` interface. -/
def VerticalShape.toShape {α : Type} [LinearOrderedField α] (self : VerticalShape α) : Shape α :=
  { getHeight := self.getHeight, getWidth := self.getWidth,
    getPostScript := self.getPostScript }

/-- Class `HorizontalShape` (`Shape.hpp` 151-162). -/
structure HorizontalShape (α : Type) where
  toCompoundShape : CompoundShape α
  _shapes : List (ShapePtr α)

/-- `HorizontalShape::HorizontalShape` (`Shape.cpp` 227-228). -/
def HorizontalShape.new {α : Type} (shapes : List (ShapePtr α)) : HorizontalShape α :=
  { toCompoundShape := CompoundShape.new, _shapes := shapes }

/-- `HorizontalShape::combinedHeight` (`Shape.cpp` 237-239). -/
def HorizontalShape.combinedHeight {α : Type} [LinearOrderedField α]
    (height : α) (shape : ShapePtr α) : α :=
  max height shape.getHeight

/-- `HorizontalShape::combinedWidth` (`Shape.cpp` 241-243). -/
def HorizontalShape.combinedWidth {α : Type} (_width : α) (shape : ShapePtr α) : α :=
  shape.getHeight

/-- `getHeight` of a `HorizontalShape`. -/
def HorizontalShape.getHeight {α : Type} [LinearOrderedField α] (self : HorizontalShape α) : α :=
  self.toCompoundShape.getHeight HorizontalShape.combinedHeight

/-- `getWidth` of a `HorizontalShape`. -/
def HorizontalShape.getWidth {α : Type} [LinearOrderedField α] (self : HorizontalShape α) : α :=
  self.toCompoundShape.getWidth HorizontalShape.combinedWidth

/-- `HorizontalShape::moveToPositionForShape` (`Shape.cpp` 230-235), at an
index below `getShapes().size()`. -/
def HorizontalShape.moveToPositionForShape {α : Type} [LinearOrderedField α]
    (self : HorizontalShape α) (i : Fin self.toCompoundShape.getShapes.length) : Text α :=
  if i.val = 0 then
    [Piece.num ((self.toCompoundShape.getShapes.get i).getWidth / 2 - self.getWidth / 2),
     Piece.lit " 0 rmoveto\n"]
  else
    [Piece.num ((self.toCompoundShape.getShapes.get i).getWidth / 2
       + (self.toCompoundShape.getShapes.get ⟨i.val - 1, by omega⟩).getWidth / 2),
     Piece.lit " 0 rmoveto\n"]

/-- `getPostScript` of a `HorizontalShape`. -/
def HorizontalShape.getPostScript {α : Type} [LinearOrderedField α]
    (self : HorizontalShape α) : Text α :=
  self.toCompoundShape.getPostScript self.moveToPositionForShape

/-- A `HorizontalShape` seen through the `Shape` interface. -/
def HorizontalShape.toShape {α : Type} [LinearOrderedField α] (self : HorizontalShape α) :
    Shape α :=
  { getHeight := self.getHeight, getWidth := self.getWidth,
    getPostScript := self.getPostScript }

/-! ## The factory functions (`Shape.cpp` 246-288) -/

/-- `makeCircle` (`Shape.cpp` 246-248). -/
def makeCircle {α : Type} [LinearOrderedField α] (radius : α) : ShapePtr α :=
  (Circle.mk radius).toShape

/-- `makeRectangle` (`Shape.cpp` 250-252). -/
def makeRectangle {α : Type} [LinearOrderedField α] (width height : α) : ShapePtr α :=
  (Rectangle.mk width height).toShape

/-- `makeSpacer` (`Shape.cpp` 254-256). -/
def makeSpacer {α : Type} (width height : α) : ShapePtr α :=
  (Spacer.mk width height).toShape

/-- `makePolygon` (`Shape.cpp` 258-260). -/
def makePolygon {α : Type} [LinearOrderedField α] (m : Cmath α) (numSides : Int)
    (sideLength : α) : ShapePtr α :=
  (Polygon.mk numSides sideLength).toShape m

/-- `makeSquare` (`Shape.cpp` 262-264). -/
def makeSquare {α : Type} [LinearOrderedField α] (m : Cmath α) (sideLength : α) : ShapePtr α :=
  (Square.new sideLength).toShape m

/-- `makeTriangle` (`Shape.cpp` 266-268). -/
def makeTriangle {α : Type} [LinearOrderedField α] (m : Cmath α) (sideLength : α) :
    ShapePtr α :=
  (Triangle.new sideLength).toShape m

/-- `makeScaledShape` (`Shape.cpp` 270-272). -/
def makeScaledShape {α : Type} [LinearOrderedField α] (shape : ShapePtr α)
    (xScale yScale : α) : ShapePtr α :=
  (ScaledShape.mk shape xScale yScale).toShape

/-- `makeRotatedShape` (`Shape.cpp` 274-276). -/
def makeRotatedShape {α : Type} (shape : ShapePtr α) (rotation : Rot) : ShapePtr α :=
  (RotatedShape.mk shape rotation).toShape

/-- `makeLayeredShape` (`Shape.cpp` 278-280). -/
def makeLayeredShape {α : Type} [LinearOrderedField α] (shapes : List (ShapePtr α)) :
    ShapePtr α :=
  (LayeredShape.new shapes).toShape

/-- `makeVerticalShape` (`Shape.cpp` 282-284). -/
def makeVerticalShape {α : Type} [LinearOrderedField α] (shapes : List (ShapePtr α)) :
    ShapePtr α :=
  (VerticalShape.new shapes).toShape

/-- `makeHorizontalShape` (`Shape.cpp` 286-288). -/
def makeHorizontalShape {α : Type} [LinearOrderedField α] (shapes : List (ShapePtr α)) :
    ShapePtr α :=
  (HorizontalShape.new shapes).toShape

/-! ## Shape trees

The objects a client can build are those the factory functions return.
`PositiveInputs m s` says that `s` is built by the factories from inputs in
the ranges the data model names, a polygon's side count being an `int` for
which `2 * _numSides` does not overflow when `Polygon::getWidth` computes
it (it does so for an odd count only). -/

/-- Shape trees built by the factory functions from positive inputs. -/
inductive PositiveInputs {α : Type} [LinearOrderedField α] (m : Cmath α) : ShapePtr α → Prop
  | circle (r : α) : 0 < r → PositiveInputs m (makeCircle r)
  | rectangle (w h : α) : 0 < w → 0 < h → PositiveInputs m (makeRectangle w h)
  | spacer (w h : α) : 0 ≤ w → 0 ≤ h → PositiveInputs m (makeSpacer w h)
  | polygon (numSides : Int) (sideLength : α) :
      3 ≤ numSides → numSides ≤ 2147483647 → (Odd numSides → numSides < 1073741824) →
      0 < sideLength → PositiveInputs m (makePolygon m numSides sideLength)
  | scaled (c : ShapePtr α) (xScale yScale : α) :
      PositiveInputs m c → 0 < xScale → 0 < yScale →
      PositiveInputs m (makeScaledShape c xScale yScale)
  | rotated (c : ShapePtr α) (rotation : Rot) :
      PositiveInputs m c → PositiveInputs m (makeRotatedShape c rotation)
  | layered (shapes : List (ShapePtr α)) :
      (∀ c ∈ shapes, PositiveInputs m c) → PositiveInputs m (makeLayeredShape shapes)
  | vertical (shapes : List (ShapePtr α)) :
      (∀ c ∈ shapes, PositiveInputs m c) → PositiveInputs m (makeVerticalShape shapes)
  | horizontal (shapes : List (ShapePtr α)) :
      (∀ c ∈ shapes, PositiveInputs m c) → PositiveInputs m (makeHorizontalShape shapes)

/-- Shape trees: every value the factory functions build, with any
arguments and any nesting. -/
inductive ShapeTree {α : Type} [LinearOrderedField α] (m : Cmath α) : ShapePtr α → Prop
  | circle (r : α) : ShapeTree m (makeCircle r)
  | rectangle (w h : α) : ShapeTree m (makeRectangle w h)
  | spacer (w h : α) : ShapeTree m (makeSpacer w h)
  | polygon (numSides : Int) (sideLength : α) : ShapeTree m (makePolygon m numSides sideLength)
  | scaled (c : ShapePtr α) (xScale yScale : α) :
      ShapeTree m c → ShapeTree m (makeScaledShape c xScale yScale)
  | rotated (c : ShapePtr α) (rotation : Rot) :
      ShapeTree m c → ShapeTree m (makeRotatedShape c rotation)
  | layered (shapes : List (ShapePtr α)) :
      (∀ c ∈ shapes, ShapeTree m c) → ShapeTree m (makeLayeredShape shapes)
  | vertical (shapes : List (ShapePtr α)) :
      (∀ c ∈ shapes, ShapeTree m c) → ShapeTree m (makeVerticalShape shapes)
  | horizontal (shapes : List (ShapePtr α)) :
      (∀ c ∈ shapes, ShapeTree m c) → ShapeTree m (makeHorizontalShape shapes)

/-! ## PostScript tokens

The operators of a text are read off its tokens: the characters of the
literals in order, one mark `none` for each printed number, cut at white
space. A printed number is never empty and holds no white space, so it is
part of one token, which then is not an operator. -/

/-- The characters of a text, a printed number being the single mark
`none`. -/
def Text.chars {α : Type} : Text α → List (Option Char)
  | [] => []
  | Piece.lit s :: rest => s.toList.map some ++ Text.chars rest
  | Piece.num _ :: rest => none :: Text.chars rest

/-- White space: a blank, a tab, a carriage return or a newline. -/
def isWhite : Option Char → Bool
  | some c => c.isWhitespace
  | none => false

/-- The word read so far, as a token when it is not empty. -/
def endWord (cur : List (Option Char)) : List (List (Option Char)) :=
  if cur = [] then [] else [cur]

/-- The tokens of a character sequence, `cur` being the word read so far. -/
def tokensFrom (cur : List (Option Char)) : List (Option Char) → List (List (Option Char))
  | [] => endWord cur
  | c :: cs => if isWhite c then endWord cur ++ tokensFrom [] cs else tokensFrom (cur ++ [c]) cs

/-- The tokens of a text. -/
def Text.tokens {α : Type} (t : Text α) : List (List (Option Char)) := tokensFrom [] t.chars

/-- The operator `gsave`. -/
def gsaveWord : List (Option Char) := "gsave".toList.map some

/-- The operator `grestore`. -/
def grestoreWord : List (Option Char) := "grestore".toList.map some

/-- A character sequence that is empty or ends in white space. -/
def endsClean (l : List (Option Char)) : Bool :=
  match l.getLast? with
  | none => true
  | some c => isWhite c

/-- Saves and restores are balanced and properly nested in a token sequence:
as many `gsave` as `grestore`, and in no initial part more `grestore` than
`gsave`. -/
def SaveBalanced (toks : List (List (Option Char))) : Prop :=
  toks.count gsaveWord = toks.count grestoreWord
  ∧ ∀ k, (toks.take k).count grestoreWord ≤ (toks.take k).count gsaveWord

/-! ## The shared traversal -/

/-- A loop whose body leaves the accumulator as it is returns the initial
value. -/
theorem foldl_dropped {α β : Type} (f : α → β → α) (l : List β) (a : α) :
    l.foldl (fun acc x => let _discarded := f acc x; acc) a = a := by
  induction l with
  | nil => rfl
  | cons x xs ih => simp [List.foldl]

/-- `CompoundShape::getHeight` returns `0` whatever `getShapes()` holds. -/
theorem CompoundShape.getHeight_eq_zero {α : Type} [Zero α]
    (combinedHeight : α → ShapePtr α → α) (self : CompoundShape α) :
    self.getHeight combinedHeight = 0 :=
  foldl_dropped combinedHeight self.getShapes 0

/-- `CompoundShape::getWidth` returns `0` whatever `getShapes()` holds. -/
theorem CompoundShape.getWidth_eq_zero {α : Type} [Zero α]
    (combinedWidth : α → ShapePtr α → α) (self : CompoundShape α) :
    self.getWidth combinedWidth = 0 :=
  foldl_dropped combinedWidth self.getShapes 0

/-- The traversal of a default-constructed `CompoundShape` emits the outer
save and restore only. -/
theorem CompoundShape.getPostScript_new {α : Type}
    (move : Fin (CompoundShape.new : CompoundShape α).getShapes.length → Text α) :
    (CompoundShape.new : CompoundShape α).getPostScript move
      = [Piece.lit "gsave\n", Piece.lit "grestore\n"] := rfl

/-- Height of a shape made by `makeLayeredShape`. -/
theorem getHeight_makeLayeredShape {α : Type} [LinearOrderedField α]
    (shapes : List (ShapePtr α)) : (makeLayeredShape shapes).getHeight = 0 :=
  CompoundShape.getHeight_eq_zero LayeredShape.combinedHeight (LayeredShape.new shapes).toCompoundShape

/-- Width of a shape made by `makeLayeredShape`. -/
theorem getWidth_makeLayeredShape {α : Type} [LinearOrderedField α]
    (shapes : List (ShapePtr α)) : (makeLayeredShape shapes).getWidth = 0 :=
  CompoundShape.getWidth_eq_zero LayeredShape.combinedWidth (LayeredShape.new shapes).toCompoundShape

/-- Height of a shape made by `makeVerticalShape`. -/
theorem getHeight_makeVerticalShape {α : Type} [LinearOrderedField α]
    (shapes : List (ShapePtr α)) : (makeVerticalShape shapes).getHeight = 0 :=
  CompoundShape.getHeight_eq_zero VerticalShape.combinedHeight (VerticalShape.new shapes).toCompoundShape

/-- Width of a shape made by `makeVerticalShape`. -/
theorem getWidth_makeVerticalShape {α : Type} [LinearOrderedField α]
    (shapes : List (ShapePtr α)) : (makeVerticalShape shapes).getWidth = 0 :=
  CompoundShape.getWidth_eq_zero VerticalShape.combinedWidth (VerticalShape.new shapes).toCompoundShape

/-- Height of a shape made by `makeHorizontalShape`. -/
theorem getHeight_makeHorizontalShape {α : Type} [LinearOrderedField α]
    (shapes : List (ShapePtr α)) : (makeHorizontalShape shapes).getHeight = 0 :=
  CompoundShape.getHeight_eq_zero HorizontalShape.combinedHeight (HorizontalShape.new shapes).toCompoundShape

/-- Width of a shape made by `makeHorizontalShape`. -/
theorem getWidth_makeHorizontalShape {α : Type} [LinearOrderedField α]
    (shapes : List (ShapePtr α)) : (makeHorizontalShape shapes).getWidth = 0 :=
  CompoundShape.getWidth_eq_zero HorizontalShape.combinedWidth (HorizontalShape.new shapes).toCompoundShape

/-- PostScript of a shape made by `makeLayeredShape`. -/
theorem getPostScript_makeLayeredShape {α : Type} [LinearOrderedField α]
    (shapes : List (ShapePtr α)) :
    (makeLayeredShape shapes).getPostScript
      = [Piece.lit "gsave\n", Piece.lit "grestore\n"] := rfl

/-- PostScript of a shape made by `makeVerticalShape`. -/
theorem getPostScript_makeVerticalShape {α : Type} [LinearOrderedField α]
    (shapes : List (ShapePtr α)) :
    (makeVerticalShape shapes).getPostScript
      = [Piece.lit "gsave\n", Piece.lit "grestore\n"] := rfl

/-- PostScript of a shape made by `makeHorizontalShape`. -/
theorem getPostScript_makeHorizontalShape {α : Type} [LinearOrderedField α]
    (shapes : List (ShapePtr α)) :
    (makeHorizontalShape shapes).getPostScript
      = [Piece.lit "gsave\n", Piece.lit "grestore\n"] := rfl

/-- Height of a rectangle. -/
theorem getHeight_makeRectangle {α : Type} [LinearOrderedField α] (w h : α) :
    (makeRectangle w h).getHeight = h := rfl

/-- Width of a rectangle. -/
theorem getWidth_makeRectangle {α : Type} [LinearOrderedField α] (w h : α) :
    (makeRectangle w h).getWidth = w := rfl

/-! ## Dimensions and rendering of compound shapes -/

/-- C1: the claim is that `getHeight()`/`getWidth()` of a compound shape are
the left folds of the policy's `combinedHeight`/`combinedWidth` over the
children, from `0`. On a compound of each policy built from the single child
`Rectangle(2, 4)` (width 2, height 4) every such fold is `4`, and the code
returns `0` for the height and for the width. -/
theorem C1_compound_dims_differ_from_fold :
    ((makeLayeredShape [makeRectangle (2 : ℚ) 4]).getHeight = 0
      ∧ List.foldl LayeredShape.combinedHeight 0 [makeRectangle (2 : ℚ) 4] = 4
      ∧ (makeLayeredShape [makeRectangle (2 : ℚ) 4]).getWidth = 0
      ∧ List.foldl LayeredShape.combinedWidth 0 [makeRectangle (2 : ℚ) 4] = 4)
    ∧ ((makeVerticalShape [makeRectangle (2 : ℚ) 4]).getHeight = 0
      ∧ List.foldl VerticalShape.combinedHeight 0 [makeRectangle (2 : ℚ) 4] = 4
      ∧ (makeVerticalShape [makeRectangle (2 : ℚ) 4]).getWidth = 0
      ∧ List.foldl VerticalShape.combinedWidth 0 [makeRectangle (2 : ℚ) 4] = 4)
    ∧ ((makeHorizontalShape [makeRectangle (2 : ℚ) 4]).getHeight = 0
      ∧ List.foldl HorizontalShape.combinedHeight 0 [makeRectangle (2 : ℚ) 4] = 4
      ∧ (makeHorizontalShape [makeRectangle (2 : ℚ) 4]).getWidth = 0
      ∧ List.foldl HorizontalShape.combinedWidth 0 [makeRectangle (2 : ℚ) 4] = 4) := by
  refine ⟨⟨getHeight_makeLayeredShape _, ?_, getWidth_makeLayeredShape _, ?_⟩,
    ⟨getHeight_makeVerticalShape _, ?_, getWidth_makeVerticalShape _, ?_⟩,
    ⟨getHeight_makeHorizontalShape _, ?_, getWidth_makeHorizontalShape _, ?_⟩⟩ <;>
  simp [LayeredShape.combinedHeight, LayeredShape.combinedWidth,
    VerticalShape.combinedHeight, VerticalShape.combinedWidth,
    HorizontalShape.combinedHeight, HorizontalShape.combinedWidth,
    getHeight_makeRectangle]

/-- C2: the claim is that a `LayeredShape` has `getHeight()` equal to the
maximum of `0` and its children's heights, `4` for children A (height 4,
width 2) and B (height 2, width 6). On these two children that maximum is
`4` and the code returns `0`. -/
theorem C2_layered_height_of_A_B :
    (makeLayeredShape [makeRectangle (2 : ℚ) 4, makeRectangle 6 2]).getHeight = 0
    ∧ max 0 (max (makeRectangle (2 : ℚ) 4).getHeight (makeRectangle (6 : ℚ) 2).getHeight) = 4 := by
  refine ⟨getHeight_makeLayeredShape _, ?_⟩
  norm_num [getHeight_makeRectangle]

/-- C3: the claim is that a `LayeredShape` has `getWidth()` equal to the
maximum of `0` and its children's heights, `4` for children A (height 4,
width 2) and B (height 2, width 6). On these two children the code returns
`0`, which is neither that maximum `4` nor the largest width `6`. -/
theorem C3_layered_width_of_A_B :
    (makeLayeredShape [makeRectangle (2 : ℚ) 4, makeRectangle 6 2]).getWidth = 0
    ∧ max 0 (max (makeRectangle (2 : ℚ) 4).getHeight (makeRectangle (6 : ℚ) 2).getHeight) = 4
    ∧ max 0 (max (makeRectangle (2 : ℚ) 4).getWidth (makeRectangle (6 : ℚ) 2).getWidth) = 6 := by
  refine ⟨getWidth_makeLayeredShape _, ?_, ?_⟩
  · norm_num [getHeight_makeRectangle]
  · norm_num [getWidth_makeRectangle]

/-- C4: the claim is that a `VerticalShape` over a non-empty list has
`getHeight()` equal to the height of its last child, `6` for two children of
heights 4 and 6. On two rectangles of heights 4 and 6 the last child's
height is `6` and the code returns `0`. -/
theorem C4_vertical_height_of_4_6 :
    (makeVerticalShape [makeRectangle (1 : ℚ) 4, makeRectangle 1 6]).getHeight = 0
    ∧ ([makeRectangle (1 : ℚ) 4, makeRectangle 1 6].getLast?.map Shape.getHeight) = some 6 := by
  refine ⟨getHeight_makeVerticalShape _, ?_⟩
  simp [getHeight_makeRectangle]

/-- C5: the claim is that `getPostScript()` of a compound shape is
`"gsave\n"`, then for each child its positioning command and its own
PostScript, then `"grestore\n"`. For a `LayeredShape` over the single child
`Circle(1)` the code returns `"gsave\n"` followed by `"grestore\n"`: it
differs from the text of the claim, and the child's PostScript, which is not
empty, is no part of it. -/
theorem C5_layered_circle_postscript :
    (makeLayeredShape [makeCircle (1 : ℚ)]).getPostScript
      = [Piece.lit "gsave\n", Piece.lit "grestore\n"]
    ∧ (makeLayeredShape [makeCircle (1 : ℚ)]).getPostScript
      ≠ [Piece.lit "gsave\n"]
          ++ ([Piece.lit "0 0 rmoveto\n"] ++ (makeCircle (1 : ℚ)).getPostScript)
          ++ [Piece.lit "grestore\n"]
    ∧ (makeCircle (1 : ℚ)).getPostScript ≠ []
    ∧ ¬ ((makeCircle (1 : ℚ)).getPostScript
          <:+: (makeLayeredShape [makeCircle (1 : ℚ)]).getPostScript) := by
  refine ⟨getPostScript_makeLayeredShape _, ?_, ?_, ?_⟩
  · rw [getPostScript_makeLayeredShape]
    simp
  · simp [makeCircle, Circle.toShape, Circle.getPostScript]
  · rw [getPostScript_makeLayeredShape]
    intro h
    have hl := h.length_le
    simp [makeCircle, Circle.toShape, Circle.getPostScript] at hl

/-- C6: the claim is that a `VerticalShape` over a non-empty list emits a
relative move before each child. For a `VerticalShape` over the single child
`Rectangle(2, 4)` the code returns `"gsave\n"` followed by `"grestore\n"`:
no `rmoveto` command is emitted, and the move by
`(0, child[0].height/2 - total.height/2)` of the claim is no part of the
text. -/
theorem C6_vertical_emits_no_move :
    (makeVerticalShape [makeRectangle (2 : ℚ) 4]).getPostScript
      = [Piece.lit "gsave\n", Piece.lit "grestore\n"]
    ∧ Piece.lit " rmoveto\n" ∉ (makeVerticalShape [makeRectangle (2 : ℚ) 4]).getPostScript
    ∧ ¬ ([Piece.lit "0 ",
          Piece.num ((makeRectangle (2 : ℚ) 4).getHeight / 2
            - (makeVerticalShape [makeRectangle (2 : ℚ) 4]).getHeight / 2),
          Piece.lit " rmoveto\n"]
        <:+: (makeVerticalShape [makeRectangle (2 : ℚ) 4]).getPostScript) := by
  refine ⟨getPostScript_makeVerticalShape _, ?_, ?_⟩
  · rw [getPostScript_makeVerticalShape]
    simp
  · rw [getPostScript_makeVerticalShape]
    intro h
    have hl := h.length_le
    simp at hl

/-! ## Decorators -/

/-- C8: for every child `c`, `RotatedShape(c, R180)` reports the child's
height and width unchanged, and `RotatedShape(c, R90)` and
`RotatedShape(c, R270)` each report the child's width as height and the
child's height as width. -/
theorem C8_rotated_dimensions {α : Type} (c : ShapePtr α) :
    ((makeRotatedShape c Rot.R180).getHeight = c.getHeight
      ∧ (makeRotatedShape c Rot.R180).getWidth = c.getWidth)
    ∧ ((makeRotatedShape c Rot.R90).getHeight = c.getWidth
      ∧ (makeRotatedShape c Rot.R90).getWidth = c.getHeight)
    ∧ ((makeRotatedShape c Rot.R270).getHeight = c.getWidth
      ∧ (makeRotatedShape c Rot.R270).getWidth = c.getHeight) :=
  ⟨⟨rfl, rfl⟩, ⟨rfl, rfl⟩, ⟨rfl, rfl⟩⟩

/-- C9: for every child `c` and all positive `x`, `y`, `ScaledShape(c, x, y)`
has `getHeight() == y * c.getHeight()` and `getWidth() == x * c.getWidth()`. -/
theorem C9_scaled_dimensions {α : Type} [LinearOrderedField α] (c : ShapePtr α) (x y : α)
    (_hx : 0 < x) (_hy : 0 < y) :
    (makeScaledShape c x y).getHeight = y * c.getHeight
    ∧ (makeScaledShape c x y).getWidth = x * c.getWidth :=
  ⟨rfl, rfl⟩

/-- C9 at `ScaledShape(Rectangle(2, 4), 3, 5)`: height `5 * 4`, width
`3 * 2`. -/
theorem C9_scaled_dimensions_witness :
    (0 : ℚ) < 3 ∧ (0 : ℚ) < 5
    ∧ (makeScaledShape (makeRectangle (2 : ℚ) 4) 3 5).getHeight
        = 5 * (makeRectangle (2 : ℚ) 4).getHeight
    ∧ (makeScaledShape (makeRectangle (2 : ℚ) 4) 3 5).getWidth
        = 3 * (makeRectangle (2 : ℚ) 4).getWidth :=
  ⟨by norm_num, by norm_num,
    C9_scaled_dimensions (makeRectangle (2 : ℚ) 4) 3 5 (by norm_num) (by norm_num)⟩

/-! ## Polygon: closed forms and `int` arithmetic -/

/-- An `int` expression whose value is representable has that value. -/
theorem wrapInt_eq_self (x : Int) (h1 : -2147483648 ≤ x) (h2 : x ≤ 2147483647) :
    wrapInt x = x := by
  unfold wrapInt
  omega

/-- The test `_numSides % 2 == 0` is evenness. -/
theorem tmod_two_eq_zero_iff (n : Int) : Int.tmod n 2 = 0 ↔ Even n := by
  rw [← Int.dvd_iff_tmod_eq_zero, even_iff_two_dvd]

/-- The test `_numSides % 4 == 0` is divisibility by four. -/
theorem tmod_four_eq_zero_iff (n : Int) : Int.tmod n 4 = 0 ↔ 4 ∣ n :=
  Int.dvd_iff_tmod_eq_zero.symm

/-- `Polygon::getHeight` by the parity of the side count. -/
theorem getHeight_makePolygon {α : Type} [LinearOrderedField α] (m : Cmath α) (n : Int)
    (s : α) :
    (makePolygon m n s).getHeight
      = if Even n then s * m.cos (m.pi / (n : α)) / m.sin (m.pi / (n : α))
        else s * (1 + m.cos (m.pi / (n : α))) / (2 * m.sin (m.pi / (n : α))) := by
  simp only [makePolygon, Polygon.toShape, Polygon.getHeight, tmod_two_eq_zero_iff]

/-- `Polygon::getWidth` by the residue of the side count, the `int`
expressions of the odd branch left as the code computes them. -/
theorem getWidth_makePolygon {α : Type} [LinearOrderedField α] (m : Cmath α) (n : Int)
    (s : α) :
    (makePolygon m n s).getWidth
      = if 4 ∣ n then s * m.cos (m.pi / (n : α)) / m.sin (m.pi / (n : α))
        else if Even n then s / m.sin (m.pi / (n : α))
        else s * m.sin (m.pi * ((wrapInt (n - 1) : Int) : α) / ((wrapInt (2 * n) : Int) : α))
              / m.sin (m.pi / (n : α)) := by
  simp only [makePolygon, Polygon.toShape, Polygon.getWidth, tmod_two_eq_zero_iff,
    tmod_four_eq_zero_iff]

/-- With `2^30 + 1` sides the product `2 * _numSides` leaves the range of
`int`: the angle handed to `sin` is negative, and so is the width. Over the
reals. -/
theorem getWidth_makePolygon_overflow :
    (makePolygon (Cmath.mk Real.pi Real.cos Real.sin) 1073741825 (1 : ℝ)).getWidth < 0 := by
  have hw1 : wrapInt (1073741825 - 1) = 1073741824 := by decide
  have hw2 : wrapInt (2 * 1073741825) = -2147483646 := by decide
  have h4 : ¬ (4 : Int) ∣ 1073741825 := by decide
  have h2 : ¬ Even (1073741825 : Int) := by decide
  rw [getWidth_makePolygon, if_neg h4, if_neg h2, hw1, hw2]
  have hpi := Real.pi_pos
  have hnum : Real.sin (Real.pi * ((1073741824 : Int) : ℝ) / ((-2147483646 : Int) : ℝ)) < 0 := by
    apply Real.sin_neg_of_neg_of_neg_pi_lt
    · push_cast
      apply div_neg_of_pos_of_neg (by positivity) (by norm_num)
    · push_cast
      rw [lt_div_iff_of_neg (by norm_num)]
      nlinarith
  have hden : 0 < Real.sin (Real.pi / ((1073741825 : Int) : ℝ)) := by
    apply Real.sin_pos_of_pos_of_lt_pi
    · push_cast
      positivity
    · push_cast
      rw [div_lt_iff₀ (by norm_num)]
      nlinarith
  rw [one_mul]
  exact div_neg_of_neg_of_pos hnum hden

/-- For at least three sides the angle `pi / _numSides` lies in
`(0, pi/2]`. -/
theorem pi_div_numSides_mem (n : Int) (hn : 3 ≤ n) :
    0 < Real.pi / (n : ℝ) ∧ Real.pi / (n : ℝ) ≤ Real.pi / 2 := by
  have h3 : (3 : ℝ) ≤ (n : ℝ) := by exact_mod_cast hn
  have hpi := Real.pi_pos
  constructor
  · positivity
  · exact div_le_div_of_nonneg_left hpi.le (by norm_num) (by linarith)

/-- The angle of the odd branch of `Polygon::getWidth` has a positive sine
when `2 * _numSides` is representable. -/
theorem sin_odd_width_angle_pos (n : Int) (hn : 3 ≤ n) (hb : n < 1073741824) :
    0 < Real.sin (Real.pi * ((wrapInt (n - 1) : Int) : ℝ) / ((wrapInt (2 * n) : Int) : ℝ)) := by
  rw [wrapInt_eq_self (n - 1) (by omega) (by omega),
    wrapInt_eq_self (2 * n) (by omega) (by omega)]
  have h3 : (3 : ℝ) ≤ (n : ℝ) := by exact_mod_cast hn
  have hpi := Real.pi_pos
  push_cast
  apply Real.sin_pos_of_pos_of_lt_pi
  · exact div_pos (mul_pos hpi (by linarith)) (by linarith)
  · rw [div_lt_iff₀ (by linarith)]
    nlinarith

/-- A polygon with at least three sides and a positive side length has
non-negative dimensions when the `int` arithmetic of its width is exact.
Over the reals. -/
theorem makePolygon_dims_nonneg (n : Int) (s : ℝ) (hn : 3 ≤ n)
    (hodd : Odd n → n < 1073741824) (hs : 0 < s) :
    0 ≤ (makePolygon (Cmath.mk Real.pi Real.cos Real.sin) n s).getHeight
    ∧ 0 ≤ (makePolygon (Cmath.mk Real.pi Real.cos Real.sin) n s).getWidth := by
  obtain ⟨hx0, hx2⟩ := pi_div_numSides_mem n hn
  have hpi := Real.pi_pos
  have hsin : 0 < Real.sin (Real.pi / (n : ℝ)) :=
    Real.sin_pos_of_pos_of_lt_pi hx0 (by linarith)
  have hcos : 0 ≤ Real.cos (Real.pi / (n : ℝ)) :=
    Real.cos_nonneg_of_neg_pi_div_two_le_of_le (by linarith) hx2
  rw [getHeight_makePolygon, getWidth_makePolygon]
  refine ⟨?_, ?_⟩
  · split_ifs
    · exact div_nonneg (mul_nonneg hs.le hcos) hsin.le
    · exact div_nonneg (mul_nonneg hs.le (by linarith)) (by linarith)
  · split_ifs with h4 h2
    · exact div_nonneg (mul_nonneg hs.le hcos) hsin.le
    · exact div_nonneg hs.le hsin.le
    · have hb := hodd (Int.not_even_iff_odd.mp h2)
      exact div_nonneg (mul_nonneg hs.le (sin_odd_width_angle_pos n hn hb).le) hsin.le

/-! ## Non-negative dimensions -/

/-- C7, as stated, fails: `Polygon(1073741825, 1)` has at least three sides
and a positive side length, and its `getWidth()` is negative over the
reals, the `int` product `2 * _numSides` having wrapped. -/
theorem C7_polygon_negative_width :
    (3 : Int) ≤ 1073741825 ∧ (1073741825 : Int) ≤ 2147483647 ∧ (0 : ℝ) < 1
    ∧ ¬ (0 ≤ (makePolygon (Cmath.mk Real.pi Real.cos Real.sin) 1073741825 (1 : ℝ)).getWidth) :=
  ⟨by decide, by decide, one_pos, not_le.mpr getWidth_makePolygon_overflow⟩

/-- C7, amended: every shape tree built by the factories from positive inputs
(circle radius `> 0`, rectangle sides `> 0`, spacer sides `>= 0`, polygon
with an `int` side count `>= 3`, below `2^30` when odd, and side length
`> 0`, scale factors `> 0`, any rotation, any list of such children under
the three compound policies) has `getHeight() >= 0` and `getWidth() >= 0`,
dimensions taken as real numbers. -/
theorem C7_dimensions_nonneg (s : ShapePtr ℝ)
    (h : PositiveInputs (Cmath.mk Real.pi Real.cos Real.sin) s) :
    0 ≤ s.getHeight ∧ 0 ≤ s.getWidth := by
  induction h with
  | circle r hr =>
    constructor <;>
    · simp only [makeCircle, Circle.toShape, Circle.getHeight, Circle.getWidth]
      linarith
  | rectangle w h hw hh => exact ⟨hh.le, hw.le⟩
  | spacer w h hw hh => exact ⟨hh, hw⟩
  | polygon n side hn _ hodd hs => exact makePolygon_dims_nonneg n side hn hodd hs
  | scaled c x y _ hx hy ih => exact ⟨mul_nonneg hy.le ih.1, mul_nonneg hx.le ih.2⟩
  | rotated c r _ ih =>
    cases r
    · exact ⟨ih.2, ih.1⟩
    · exact ⟨ih.1, ih.2⟩
    · exact ⟨ih.2, ih.1⟩
  | layered shapes _ _ =>
    exact ⟨(getHeight_makeLayeredShape shapes).ge, (getWidth_makeLayeredShape shapes).ge⟩
  | vertical shapes _ _ =>
    exact ⟨(getHeight_makeVerticalShape shapes).ge, (getWidth_makeVerticalShape shapes).ge⟩
  | horizontal shapes _ _ =>
    exact ⟨(getHeight_makeHorizontalShape shapes).ge, (getWidth_makeHorizontalShape shapes).ge⟩

/-- C7 at `ScaledShape(Polygon(5, 1), 2, 3)`, a tree built from positive
inputs. -/
theorem C7_dimensions_nonneg_witness :
    PositiveInputs (Cmath.mk Real.pi Real.cos Real.sin)
      (makeScaledShape (makePolygon (Cmath.mk Real.pi Real.cos Real.sin) 5 (1 : ℝ)) 2 3)
    ∧ 0 ≤ (makeScaledShape
            (makePolygon (Cmath.mk Real.pi Real.cos Real.sin) 5 (1 : ℝ)) 2 3).getHeight
    ∧ 0 ≤ (makeScaledShape
            (makePolygon (Cmath.mk Real.pi Real.cos Real.sin) 5 (1 : ℝ)) 2 3).getWidth := by
  have hP : PositiveInputs (Cmath.mk Real.pi Real.cos Real.sin)
      (makeScaledShape (makePolygon (Cmath.mk Real.pi Real.cos Real.sin) 5 (1 : ℝ)) 2 3) :=
    PositiveInputs.scaled _ _ _
      (PositiveInputs.polygon 5 1 (by decide) (by decide) (fun _ => by decide) one_pos)
      (by norm_num) (by norm_num)
  exact ⟨hP, C7_dimensions_nonneg _ hP⟩

/-! ## The closed forms of the polygon -/

/-- C10, as stated, fails: `1073741825` is an odd `int`, and over the reals
`Polygon(1073741825, 1).getWidth()` is not
`s*sin(pi*(n-1)/(2n))/sin(pi/n)`: the code divides by the `int` value of
`2 * _numSides`, which is `-2147483646`. -/
theorem C10_odd_width_overflow :
    Odd (1073741825 : Int)
    ∧ (makePolygon (Cmath.mk Real.pi Real.cos Real.sin) 1073741825 (1 : ℝ)).getWidth
      ≠ 1 * Real.sin (Real.pi * ((1073741825 : ℝ) - 1) / (2 * (1073741825 : ℝ)))
          / Real.sin (Real.pi / (1073741825 : ℝ)) := by
  refine ⟨by decide, ?_⟩
  have hpi := Real.pi_pos
  have hnum : 0 < Real.sin (Real.pi * ((1073741825 : ℝ) - 1) / (2 * (1073741825 : ℝ))) := by
    apply Real.sin_pos_of_pos_of_lt_pi
    · positivity
    · rw [div_lt_iff₀ (by norm_num)]
      nlinarith
  have hden : 0 < Real.sin (Real.pi / (1073741825 : ℝ)) := by
    apply Real.sin_pos_of_pos_of_lt_pi
    · positivity
    · rw [div_lt_iff₀ (by norm_num)]
      nlinarith
  have hpos : 0 < 1 * Real.sin (Real.pi * ((1073741825 : ℝ) - 1) / (2 * (1073741825 : ℝ)))
      / Real.sin (Real.pi / (1073741825 : ℝ)) := by
    rw [one_mul]
    exact div_pos hnum hden
  exact (getWidth_makePolygon_overflow.trans hpos).ne

/-- C10, amended: for every integer `n` and side length `s`,
`Polygon(n, s).getHeight()` is `s*cos(pi/n)/sin(pi/n)` when `n` is even and
`s*(1+cos(pi/n))/(2*sin(pi/n))` when `n` is odd;
`Polygon(n, s).getWidth()` is `s*cos(pi/n)/sin(pi/n)` when `n` is divisible
by 4 and `s/sin(pi/n)` when `n` is even but not divisible by 4; and it is
`s*sin(pi*(n-1)/(2n))/sin(pi/n)` when `n` is odd and lies in
`[-2^30, 2^30)`, where the `int` product `2 * n` is representable. Only the
last formula carries a bound. -/
theorem C10_polygon_closed_forms {α : Type} [LinearOrderedField α] (m : Cmath α) (n : Int)
    (s : α) :
    (makePolygon m n s).getHeight
      = (if Even n then s * m.cos (m.pi / (n : α)) / m.sin (m.pi / (n : α))
         else s * (1 + m.cos (m.pi / (n : α))) / (2 * m.sin (m.pi / (n : α))))
    ∧ (4 ∣ n → (makePolygon m n s).getWidth
        = s * m.cos (m.pi / (n : α)) / m.sin (m.pi / (n : α)))
    ∧ (Even n → ¬ 4 ∣ n → (makePolygon m n s).getWidth = s / m.sin (m.pi / (n : α)))
    ∧ (Odd n → -1073741824 ≤ n → n < 1073741824 → (makePolygon m n s).getWidth
        = s * m.sin (m.pi * ((n : α) - 1) / (2 * (n : α))) / m.sin (m.pi / (n : α))) := by
  refine ⟨getHeight_makePolygon m n s, ?_, ?_, ?_⟩
  · intro h4
    rw [getWidth_makePolygon, if_pos h4]
  · intro h2 h4
    rw [getWidth_makePolygon, if_neg h4, if_pos h2]
  · intro hodd hlo hhi
    have h2 : ¬ Even n := Int.not_even_iff_odd.mpr hodd
    have h4 : ¬ 4 ∣ n := by
      intro h
      exact h2 (even_iff_two_dvd.mpr (Dvd.dvd.trans (by decide) h))
    rw [getWidth_makePolygon, if_neg h4, if_neg h2,
      wrapInt_eq_self (n - 1) (by omega) (by omega),
      wrapInt_eq_self (2 * n) (by omega) (by omega)]
    push_cast
    rfl

/-- C10 over the reals at one side count of each kind: the triangle
`Polygon(3, 1)` (odd, in `[-2^30, 2^30)`), the octagon `Polygon(8, 1)`
(divisible by 4), the hexagon `Polygon(6, 1)` (even, not divisible by 4),
and the height of `Polygon(1073741825, 1)`, an odd count outside the bound
of the width. -/
theorem C10_polygon_closed_forms_witness :
    (Odd (3 : Int) ∧ -1073741824 ≤ (3 : Int) ∧ (3 : Int) < 1073741824)
    ∧ (makePolygon (Cmath.mk Real.pi Real.cos Real.sin) 3 (1 : ℝ)).getHeight
      = 1 * (1 + Real.cos (Real.pi / 3)) / (2 * Real.sin (Real.pi / 3))
    ∧ (makePolygon (Cmath.mk Real.pi Real.cos Real.sin) 3 (1 : ℝ)).getWidth
      = 1 * Real.sin (Real.pi * (3 - 1) / (2 * 3)) / Real.sin (Real.pi / 3)
    ∧ ((4 : Int) ∣ 8)
    ∧ (makePolygon (Cmath.mk Real.pi Real.cos Real.sin) 8 (1 : ℝ)).getWidth
      = 1 * Real.cos (Real.pi / 8) / Real.sin (Real.pi / 8)
    ∧ (Even (6 : Int) ∧ ¬ (4 : Int) ∣ 6)
    ∧ (makePolygon (Cmath.mk Real.pi Real.cos Real.sin) 6 (1 : ℝ)).getWidth
      = 1 / Real.sin (Real.pi / 6)
    ∧ (makePolygon (Cmath.mk Real.pi Real.cos Real.sin) 1073741825 (1 : ℝ)).getHeight
      = 1 * (1 + Real.cos (Real.pi / 1073741825))
          / (2 * Real.sin (Real.pi / 1073741825)) := by
  have h3odd : Odd (3 : Int) := by decide
  have h3even : ¬ Even (3 : Int) := by decide
  have hbig : ¬ Even (1073741825 : Int) := by decide
  have h8 : (4 : Int) ∣ 8 := by decide
  have h6e : Even (6 : Int) := by decide
  have h6 : ¬ (4 : Int) ∣ 6 := by decide
  have t3 := C10_polygon_closed_forms (Cmath.mk Real.pi Real.cos Real.sin) 3 (1 : ℝ)
  have t8 := C10_polygon_closed_forms (Cmath.mk Real.pi Real.cos Real.sin) 8 (1 : ℝ)
  have t6 := C10_polygon_closed_forms (Cmath.mk Real.pi Real.cos Real.sin) 6 (1 : ℝ)
  have tbig := C10_polygon_closed_forms (Cmath.mk Real.pi Real.cos Real.sin) 1073741825 (1 : ℝ)
  have hh3 := t3.1
  have hw3 := t3.2.2.2 h3odd (by decide) (by decide)
  have hw8 := t8.2.1 h8
  have hw6 := t6.2.2.1 h6e h6
  have hhbig := tbig.1
  rw [if_neg h3even] at hh3
  rw [if_neg hbig] at hhbig
  refine ⟨⟨h3odd, by decide, by decide⟩, ?_, ?_, h8, ?_, ⟨h6e, h6⟩, ?_, ?_⟩
  · simpa using hh3
  · simpa using hw3
  · simpa using hw8
  · simpa using hw6
  · simpa using hhbig

/-! ## Square, triangle, circle and spacer -/

/-- C11: for every side length `s`, `Square(s)` has the height and the width
of `Polygon(4, s)` (it is that polygon), and over the reals both are `s`. -/
theorem C11_square_dimensions (s : ℝ) :
    (makeSquare (Cmath.mk Real.pi Real.cos Real.sin) s).getHeight
      = (makePolygon (Cmath.mk Real.pi Real.cos Real.sin) 4 s).getHeight
    ∧ (makeSquare (Cmath.mk Real.pi Real.cos Real.sin) s).getWidth
      = (makePolygon (Cmath.mk Real.pi Real.cos Real.sin) 4 s).getWidth
    ∧ (makeSquare (Cmath.mk Real.pi Real.cos Real.sin) s).getHeight = s
    ∧ (makeSquare (Cmath.mk Real.pi Real.cos Real.sin) s).getWidth = s := by
  have h4 : (4 : Int) ∣ 4 := by decide
  have h2 : Even (4 : Int) := by decide
  have hsq : (0 : ℝ) < Real.sqrt 2 / 2 := by positivity
  have hval : s * Real.cos (Real.pi / ((4 : Int) : ℝ)) / Real.sin (Real.pi / ((4 : Int) : ℝ))
      = s := by
    push_cast
    rw [Real.cos_pi_div_four, Real.sin_pi_div_four]
    field_simp
  refine ⟨rfl, rfl, ?_, ?_⟩
  · show (makePolygon (Cmath.mk Real.pi Real.cos Real.sin) 4 s).getHeight = s
    rw [getHeight_makePolygon, if_pos h2]
    exact hval
  · show (makePolygon (Cmath.mk Real.pi Real.cos Real.sin) 4 s).getWidth = s
    rw [getWidth_makePolygon, if_pos h4]
    exact hval

/-- C12: for every side length `s`, `Triangle(s)` has the height and the
width of `Polygon(3, s)` (it is that polygon), and over the reals its height
is `s*(1+cos(pi/3))/(2*sin(pi/3))`, which is `s*sqrt(3)/2`. -/
theorem C12_triangle_dimensions (s : ℝ) :
    (makeTriangle (Cmath.mk Real.pi Real.cos Real.sin) s).getHeight
      = (makePolygon (Cmath.mk Real.pi Real.cos Real.sin) 3 s).getHeight
    ∧ (makeTriangle (Cmath.mk Real.pi Real.cos Real.sin) s).getWidth
      = (makePolygon (Cmath.mk Real.pi Real.cos Real.sin) 3 s).getWidth
    ∧ (makeTriangle (Cmath.mk Real.pi Real.cos Real.sin) s).getHeight
      = s * (1 + Real.cos (Real.pi / 3)) / (2 * Real.sin (Real.pi / 3))
    ∧ (makeTriangle (Cmath.mk Real.pi Real.cos Real.sin) s).getHeight
      = s * Real.sqrt 3 / 2 := by
  have h2 : ¬ Even (3 : Int) := by decide
  have hform : (makeTriangle (Cmath.mk Real.pi Real.cos Real.sin) s).getHeight
      = s * (1 + Real.cos (Real.pi / 3)) / (2 * Real.sin (Real.pi / 3)) := by
    show (makePolygon (Cmath.mk Real.pi Real.cos Real.sin) 3 s).getHeight = _
    rw [getHeight_makePolygon, if_neg h2]
    push_cast
    rfl
  refine ⟨rfl, rfl, hform, ?_⟩
  rw [hform, Real.cos_pi_div_three, Real.sin_pi_div_three]
  have h3 : (0 : ℝ) < Real.sqrt 3 := Real.sqrt_pos.mpr (by norm_num)
  have hsq : Real.sqrt 3 * Real.sqrt 3 = 3 := Real.mul_self_sqrt (by norm_num)
  field_simp
  have hprod : s * Real.sqrt 3 * (2 * Real.sqrt 3) = 2 * s * (Real.sqrt 3 * Real.sqrt 3) := by
    ring
  rw [hprod, hsq]
  ring

/-- C13: for every `r > 0`, `Circle(r)` has `getHeight() == 2*r` and
`getWidth() == 2*r`. -/
theorem C13_circle_dimensions {α : Type} [LinearOrderedField α] (r : α) (_hr : 0 < r) :
    (makeCircle r).getHeight = 2 * r ∧ (makeCircle r).getWidth = 2 * r :=
  ⟨rfl, rfl⟩

/-- C13 at `Circle(3)`. -/
theorem C13_circle_dimensions_witness :
    (0 : ℚ) < 3 ∧ (makeCircle (3 : ℚ)).getHeight = 2 * 3
    ∧ (makeCircle (3 : ℚ)).getWidth = 2 * 3 :=
  ⟨by norm_num, C13_circle_dimensions (3 : ℚ) (by norm_num)⟩

/-- C14: the claim is that `Spacer(w, h)` renders to the empty text, reports
height `h` and width `w`, and that a `LayeredShape` whose only child is the
spacer has `getHeight() == h`. For `Spacer(3, 5)` the text is empty and the
dimensions are `5` and `3`, and the `LayeredShape` around it has
`getHeight() == 0`, not `5`. -/
theorem C14_layered_spacer_height :
    (makeSpacer (3 : ℚ) 5).getPostScript = []
    ∧ (makeSpacer (3 : ℚ) 5).getHeight = 5
    ∧ (makeSpacer (3 : ℚ) 5).getWidth = 3
    ∧ (makeLayeredShape [makeSpacer (3 : ℚ) 5]).getHeight = 0
    ∧ (makeLayeredShape [makeSpacer (3 : ℚ) 5]).getHeight ≠ (makeSpacer (3 : ℚ) 5).getHeight := by
  refine ⟨rfl, rfl, rfl, getHeight_makeLayeredShape _, ?_⟩
  rw [getHeight_makeLayeredShape]
  show (0 : ℚ) ≠ 5
  norm_num

/-! ## Rendering of a rotated shape -/

/-- C15: for every child `c`, the PostScript of `RotatedShape(c, a)` is
`"gsave\n"`, the decimal angle (`"90"`, `"180"`, `"270"` for `R90`, `R180`,
`R270`), `" rotate\n"`, the child's PostScript verbatim, and
`"grestore\n"`. -/
theorem C15_rotated_postscript {α : Type} (c : ShapePtr α) :
    (makeRotatedShape c Rot.R90).getPostScript
      = [Piece.lit "gsave\n"] ++ [Piece.lit "90"] ++ [Piece.lit " rotate\n"]
          ++ c.getPostScript ++ [Piece.lit "grestore\n"]
    ∧ (makeRotatedShape c Rot.R180).getPostScript
      = [Piece.lit "gsave\n"] ++ [Piece.lit "180"] ++ [Piece.lit " rotate\n"]
          ++ c.getPostScript ++ [Piece.lit "grestore\n"]
    ∧ (makeRotatedShape c Rot.R270).getPostScript
      = [Piece.lit "gsave\n"] ++ [Piece.lit "270"] ++ [Piece.lit " rotate\n"]
          ++ c.getPostScript ++ [Piece.lit "grestore\n"] :=
  ⟨rfl, rfl, rfl⟩

/-! ## What the compound shapes return -/

/-- C17: for every list of children passed to the constructor of a
`LayeredShape`, a `VerticalShape` or a `HorizontalShape`, `getHeight()` is
`0`, `getWidth()` is `0` and `getPostScript()` is `"gsave\n"` followed by
`"grestore\n"`. The list the traversal reads, the base's `getShapes()`, is
empty for each of them, and the height and width loops return `0` on any
list with any reducer. -/
theorem C17_compound_shapes_ignore_children {α : Type} [LinearOrderedField α]
    (shapes : List (ShapePtr α)) :
    ((makeLayeredShape shapes).getHeight = 0 ∧ (makeLayeredShape shapes).getWidth = 0
      ∧ (makeLayeredShape shapes).getPostScript
          = [Piece.lit "gsave\n", Piece.lit "grestore\n"])
    ∧ ((makeVerticalShape shapes).getHeight = 0 ∧ (makeVerticalShape shapes).getWidth = 0
      ∧ (makeVerticalShape shapes).getPostScript
          = [Piece.lit "gsave\n", Piece.lit "grestore\n"])
    ∧ ((makeHorizontalShape shapes).getHeight = 0 ∧ (makeHorizontalShape shapes).getWidth = 0
      ∧ (makeHorizontalShape shapes).getPostScript
          = [Piece.lit "gsave\n", Piece.lit "grestore\n"])
    ∧ ((LayeredShape.new shapes).toCompoundShape.getShapes = []
      ∧ (VerticalShape.new shapes).toCompoundShape.getShapes = []
      ∧ (HorizontalShape.new shapes).toCompoundShape.getShapes = [])
    ∧ (∀ (reducer : α → ShapePtr α → α) (self : CompoundShape α),
        self.getHeight reducer = 0 ∧ self.getWidth reducer = 0) :=
  ⟨⟨getHeight_makeLayeredShape shapes, getWidth_makeLayeredShape shapes,
      getPostScript_makeLayeredShape shapes⟩,
    ⟨getHeight_makeVerticalShape shapes, getWidth_makeVerticalShape shapes,
      getPostScript_makeVerticalShape shapes⟩,
    ⟨getHeight_makeHorizontalShape shapes, getWidth_makeHorizontalShape shapes,
      getPostScript_makeHorizontalShape shapes⟩,
    ⟨rfl, rfl, rfl⟩,
    fun reducer self =>
      ⟨CompoundShape.getHeight_eq_zero reducer self, CompoundShape.getWidth_eq_zero reducer self⟩⟩

/-! ## Rendering of a polygon -/

/-- A loop that appends one block per element builds the initial text
followed by the blocks in order. -/
theorem foldl_append_eq_flatMap {β γ : Type} (f : β → List γ) (l : List β) (init : List γ) :
    l.foldl (fun acc x => acc ++ f x) init = init ++ l.flatMap f := by
  induction l generalizing init with
  | nil => simp
  | cons x xs ih => simp [List.foldl, ih, List.flatMap_cons, List.append_assoc]

/-- Two runs of blocks of equal lengths over one list are equal only when
the blocks are. -/
theorem flatMap_blocks_inj {β γ : Type} (f g : β → List γ) (l : List β)
    (hlen : ∀ x, (f x).length = (g x).length) (h : l.flatMap f = l.flatMap g) :
    ∀ x ∈ l, f x = g x := by
  induction l with
  | nil => intro x hx; cases hx
  | cons y ys ih =>
    rw [List.flatMap_cons, List.flatMap_cons] at h
    obtain ⟨h1, h2⟩ := List.append_inj h (hlen y)
    intro x hx
    rcases List.mem_cons.mp hx with rfl | hx
    · exact h1
    · exact ih h2 x hx

/-- The text of `Polygon::getPostScript`: the opening, one `rlineto` per
value of the counter, the closing. -/
theorem getPostScript_makePolygon {α : Type} [LinearOrderedField α] (m : Cmath α) (n : Int)
    (s : α) :
    (makePolygon m n s).getPostScript
      = [Piece.lit "gsave\n", Piece.num (-s / 2), Piece.lit " ",
          Piece.num (-(makePolygon m n s).getHeight / 2), Piece.lit " rmoveto\n"]
        ++ (List.range (wrapInt (n - 1)).toNat).flatMap
            (fun i => [Piece.num ((Polygon.mk n s).next_x m (i : Int)), Piece.lit " ",
              Piece.num ((Polygon.mk n s).next_y m (i : Int)), Piece.lit " rlineto\n"])
        ++ [Piece.lit "closepath\nstroke\ngrestore\n"] := by
  show (Polygon.mk n s).getPostScript m = _
  unfold Polygon.getPostScript
  simp only [foldl_append_eq_flatMap]
  simp only [List.bind_eq_flatMap, List.pure_def, List.flatMap_assoc, List.flatMap_singleton]
  rfl

/-- Blocks that agree on the elements of the list give the same run. -/
theorem flatMap_blocks_congr {β γ : Type} (f g : β → List γ) (l : List β)
    (h : ∀ x ∈ l, f x = g x) : l.flatMap f = l.flatMap g := by
  induction l with
  | nil => rfl
  | cons y ys ih =>
    rw [List.flatMap_cons, List.flatMap_cons, h y (List.mem_cons_self y ys),
      ih (fun x hx => h x (List.mem_cons_of_mem y hx))]

/-- Below `2^30` the `int` product `i * 2` of the loop is exact. -/
theorem current_direction_eq {α : Type} [LinearOrderedField α] (m : Cmath α) (n : Int) (s : α)
    (i : ℕ) (hi : i < 1073741824) :
    (Polygon.mk n s).current_direction m (i : Int) = (i : α) * 2 * m.pi / (n : α) := by
  unfold Polygon.current_direction
  rw [wrapInt_eq_self ((i : Int) * 2) (by omega) (by omega)]
  push_cast
  rfl

/-- C16, amended: for every `int` `n` with `1 <= n <= 2^30 + 1` and every
side length `s`, `Polygon(n, s).getPostScript()` is `"gsave\n"`, one relative
move by `(-s/2, -getHeight()/2)`, then exactly `n-1` relative line segments,
the `i`-th (`i = 0..n-2`, in order) being
`(s*cos(i*2*pi/n), s*sin(i*2*pi/n))`, and finally
`"closepath\nstroke\ngrestore\n"`. -/
theorem C16_polygon_postscript {α : Type} [LinearOrderedField α] (m : Cmath α) (n : Int)
    (s : α) (h1 : 1 ≤ n) (h2 : n ≤ 1073741825) :
    (makePolygon m n s).getPostScript
      = Polygon.describedPostScript m n s (makePolygon m n s).getHeight
    ∧ (((List.range (n - 1).toNat).length : ℕ) : Int) = n - 1 := by
  refine ⟨?_, ?_⟩
  · rw [getPostScript_makePolygon, wrapInt_eq_self (n - 1) (by omega) (by omega)]
    unfold Polygon.describedPostScript
    congr 2
    apply flatMap_blocks_congr
    intro i hi
    have hi' : i < 1073741824 := by
      have := List.mem_range.mp hi
      omega
    simp only [Polygon.next_x, Polygon.next_y, current_direction_eq m n s i hi']
  · rw [List.length_range]
    omega

/-- C16 at the triangle `Polygon(3, 1)`, over the reals. -/
theorem C16_polygon_postscript_witness :
    (1 : Int) ≤ 3 ∧ (3 : Int) ≤ 1073741825
    ∧ (makePolygon (Cmath.mk Real.pi Real.cos Real.sin) 3 (1 : ℝ)).getPostScript
      = Polygon.describedPostScript (Cmath.mk Real.pi Real.cos Real.sin) 3 1
          (makePolygon (Cmath.mk Real.pi Real.cos Real.sin) 3 (1 : ℝ)).getHeight
    ∧ (((List.range ((3 : Int) - 1).toNat).length : ℕ) : Int) = 3 - 1 :=
  ⟨by decide, by decide,
    C16_polygon_postscript (Cmath.mk Real.pi Real.cos Real.sin) 3 (1 : ℝ) (by decide)
      (by decide)⟩

/-- For `Polygon(2^30 + 2, 1)` at counter `2^30` the `int` product `i * 2`
is `-2^31`: the vertical part of the segment is positive. Over the reals. -/
theorem next_y_wrapped_pos :
    0 < (Polygon.mk 1073741826 (1 : ℝ)).next_y (Cmath.mk Real.pi Real.cos Real.sin)
          ((1073741824 : ℕ) : Int) := by
  have hw : wrapInt (((1073741824 : ℕ) : Int) * 2) = -2147483648 := by decide
  have hpi := Real.pi_pos
  unfold Polygon.next_y Polygon.current_direction
  rw [hw, one_mul]
  show 0 < Real.sin (((-2147483648 : Int) : ℝ) * Real.pi / ((1073741826 : Int) : ℝ))
  have harg : ((-2147483648 : Int) : ℝ) * Real.pi / ((1073741826 : Int) : ℝ)
      = 4 * Real.pi / 1073741826 - 2 * Real.pi := by
    push_cast
    field_simp
    ring
  rw [harg, Real.sin_sub_two_pi]
  apply Real.sin_pos_of_pos_of_lt_pi
  · positivity
  · rw [div_lt_iff₀ (by norm_num)]
    nlinarith

/-- The vertical part the specification describes for segment `2^30` of
`Polygon(2^30 + 2, 1)` is negative. -/
theorem described_y_neg :
    1 * Real.sin (((1073741824 : ℕ) : ℝ) * 2 * Real.pi / ((1073741826 : Int) : ℝ)) < 0 := by
  have hpi := Real.pi_pos
  have harg : ((1073741824 : ℕ) : ℝ) * 2 * Real.pi / ((1073741826 : Int) : ℝ)
      = -(4 * Real.pi / 1073741826) + 2 * Real.pi := by
    push_cast
    field_simp
    ring
  rw [one_mul, harg, Real.sin_add_two_pi, Real.sin_neg]
  have hpos : 0 < Real.sin (4 * Real.pi / 1073741826) := by
    apply Real.sin_pos_of_pos_of_lt_pi
    · positivity
    · rw [div_lt_iff₀ (by norm_num)]
      nlinarith
  linarith

/-- C16, as stated, fails: `1073741826 >= 1`, and over the reals the text of
`Polygon(1073741826, 1)` is not the described one. At counter `i = 2^30` the
code computes `i * 2` in `int`, which gives `-2^31`, and the vertical part
of that segment has the opposite sign of `s*sin(i*2*pi/n)`. -/
theorem C16_segment_direction_overflow :
    (1 : Int) ≤ 1073741826 ∧ (1073741826 : Int) ≤ 2147483647
    ∧ (makePolygon (Cmath.mk Real.pi Real.cos Real.sin) 1073741826 (1 : ℝ)).getPostScript
      ≠ Polygon.describedPostScript (Cmath.mk Real.pi Real.cos Real.sin) 1073741826 1
          (makePolygon (Cmath.mk Real.pi Real.cos Real.sin) 1073741826 (1 : ℝ)).getHeight := by
  refine ⟨by decide, by decide, ?_⟩
  intro h
  have hk1 : (wrapInt (1073741826 - 1)).toNat = 1073741825 := by decide
  have hk2 : ((1073741826 : Int) - 1).toNat = 1073741825 := by decide
  rw [getPostScript_makePolygon] at h
  unfold Polygon.describedPostScript at h
  rw [hk1, hk2] at h
  have h' := List.append_cancel_left (List.append_cancel_right h)
  have hlt : (1073741824 : ℕ) < 1073741825 := by norm_num
  have hmem : (1073741824 : ℕ) ∈ List.range 1073741825 := List.mem_range.mpr hlt
  have hb := flatMap_blocks_inj _ _ (List.range 1073741825) ?_ h' _ hmem
  swap
  · intro i
    simp only [List.length_cons, List.length_nil]
  simp only [List.cons.injEq, Piece.num.injEq] at hb
  have hy := hb.2.2.1
  have h1 := next_y_wrapped_pos
  have h2 := described_y_neg
  rw [hy] at h1
  linarith

/-! ## The path of a polygon -/

/-- Partial sums of `sin(2*i*a)`, multiplied by `2*sin(a)`, telescope. -/
theorem two_sin_mul_sum_sin (a : ℝ) (k : ℕ) :
    2 * Real.sin a * (Finset.sum (Finset.range k) fun i => Real.sin (2 * (i : ℝ) * a))
      = Real.cos a - Real.cos ((2 * (k : ℝ) - 1) * a) := by
  induction k with
  | zero =>
    have h : (2 * ((0 : ℕ) : ℝ) - 1) * a = -a := by push_cast; ring
    rw [h, Real.cos_neg]
    simp
  | succ k ih =>
    rw [Finset.sum_range_succ, mul_add, ih]
    have h1 : (2 * ((k + 1 : ℕ) : ℝ) - 1) * a = 2 * (k : ℝ) * a + a := by push_cast; ring
    have h2 : (2 * (k : ℝ) - 1) * a = 2 * (k : ℝ) * a - a := by ring
    rw [h1, h2, Real.cos_add, Real.cos_sub]
    ring

/-- Partial sums of `cos(2*i*a)`, multiplied by `2*sin(a)`, telescope. -/
theorem two_sin_mul_sum_cos (a : ℝ) (k : ℕ) :
    2 * Real.sin a * (Finset.sum (Finset.range k) fun i => Real.cos (2 * (i : ℝ) * a))
      = Real.sin a + Real.sin ((2 * (k : ℝ) - 1) * a) := by
  induction k with
  | zero =>
    have h : (2 * ((0 : ℕ) : ℝ) - 1) * a = -a := by push_cast; ring
    rw [h, Real.sin_neg]
    simp
  | succ k ih =>
    rw [Finset.sum_range_succ, mul_add, ih]
    have h1 : (2 * ((k + 1 : ℕ) : ℝ) - 1) * a = 2 * (k : ℝ) * a + a := by push_cast; ring
    have h2 : (2 * (k : ℝ) - 1) * a = 2 * (k : ℝ) * a - a := by ring
    rw [h1, h2, Real.sin_add, Real.sin_sub]
    ring

/-- On `[a, 2*pi - a]` the cosine is at most `cos a`. -/
theorem cos_le_cos_of_between (a x : ℝ) (ha0 : 0 ≤ a) (hax : a ≤ x)
    (hx : x ≤ 2 * Real.pi - a) : Real.cos x ≤ Real.cos a := by
  have hpi := Real.pi_pos
  by_cases hxpi : x ≤ Real.pi
  · exact Real.cos_le_cos_of_nonneg_of_le_pi ha0 hxpi hax
  · push_neg at hxpi
    have h : Real.cos x = Real.cos (2 * Real.pi - x) := by
      rw [Real.cos_two_pi_sub]
    rw [h]
    exact Real.cos_le_cos_of_nonneg_of_le_pi ha0 (by linarith) (by linarith)

/-- The first `N-1` edges of a regular `N`-gon of side `s`, the `i`-th in
direction `i*2*pi/N`, add up to minus the `N`-th edge. -/
theorem sum_regular_edges (N : ℕ) (hN : 2 ≤ N) (s : ℝ) :
    (Finset.sum (Finset.range (N - 1)) fun i => s * Real.cos ((i : ℝ) * 2 * Real.pi / (N : ℝ)))
      = -(s * Real.cos (((N : ℝ) - 1) * 2 * Real.pi / (N : ℝ)))
    ∧ (Finset.sum (Finset.range (N - 1)) fun i => s * Real.sin ((i : ℝ) * 2 * Real.pi / (N : ℝ)))
      = -(s * Real.sin (((N : ℝ) - 1) * 2 * Real.pi / (N : ℝ))) := by
  have hpi := Real.pi_pos
  have hN2 : (2 : ℝ) ≤ (N : ℝ) := by exact_mod_cast hN
  have hN0 : (N : ℝ) ≠ 0 := by positivity
  have hcast : ((N - 1 : ℕ) : ℝ) = (N : ℝ) - 1 := by
    rw [Nat.cast_sub (by omega)]
    simp
  have ha0 : 0 < Real.pi / (N : ℝ) := by positivity
  have haN : (N : ℝ) * (Real.pi / (N : ℝ)) = Real.pi := by field_simp
  have hapi : Real.pi / (N : ℝ) < Real.pi := by
    rw [div_lt_iff₀ (by linarith)]
    nlinarith
  have hsin : Real.sin (Real.pi / (N : ℝ)) ≠ 0 := (Real.sin_pos_of_pos_of_lt_pi ha0 hapi).ne'
  have hang : ∀ i : ℕ, (i : ℝ) * 2 * Real.pi / (N : ℝ) = 2 * (i : ℝ) * (Real.pi / (N : ℝ)) := by
    intro i
    ring
  have hlast : ((N : ℝ) - 1) * 2 * Real.pi / (N : ℝ) = 2 * Real.pi - 2 * (Real.pi / (N : ℝ)) := by
    field_simp
    ring
  have hk : (2 * ((N - 1 : ℕ) : ℝ) - 1) * (Real.pi / (N : ℝ))
      = 2 * Real.pi - 3 * (Real.pi / (N : ℝ)) := by
    rw [hcast]
    field_simp
    ring
  have h3 : 3 * (Real.pi / (N : ℝ)) = 2 * (Real.pi / (N : ℝ)) + Real.pi / (N : ℝ) := by ring
  have h1 : Real.pi / (N : ℝ) = 2 * (Real.pi / (N : ℝ)) - Real.pi / (N : ℝ) := by ring
  constructor
  · simp only [hang]
    rw [← Finset.mul_sum, hlast, Real.cos_two_pi_sub]
    have hS := two_sin_mul_sum_cos (Real.pi / (N : ℝ)) (N - 1)
    rw [hk, Real.sin_two_pi_sub] at hS
    have hprod : 2 * Real.sin (Real.pi / (N : ℝ))
          * (Finset.sum (Finset.range (N - 1)) fun i => Real.cos (2 * (i : ℝ) * (Real.pi / (N : ℝ))))
        = 2 * Real.sin (Real.pi / (N : ℝ)) * (-Real.cos (2 * (Real.pi / (N : ℝ)))) := by
      rw [hS, h3, Real.sin_add]
      nth_rewrite 1 [h1]
      rw [Real.sin_sub]
      ring
    have hcancel := mul_left_cancel₀ (mul_ne_zero two_ne_zero hsin) hprod
    rw [hcancel]
    ring
  · simp only [hang]
    rw [← Finset.mul_sum, hlast, Real.sin_two_pi_sub]
    have hS := two_sin_mul_sum_sin (Real.pi / (N : ℝ)) (N - 1)
    rw [hk, Real.cos_two_pi_sub] at hS
    have hprod : 2 * Real.sin (Real.pi / (N : ℝ))
          * (Finset.sum (Finset.range (N - 1)) fun i => Real.sin (2 * (i : ℝ) * (Real.pi / (N : ℝ))))
        = 2 * Real.sin (Real.pi / (N : ℝ)) * Real.sin (2 * (Real.pi / (N : ℝ))) := by
      rw [hS, h3, Real.cos_add]
      nth_rewrite 1 [h1]
      rw [Real.cos_sub]
      ring
    have hcancel := mul_left_cancel₀ (mul_ne_zero two_ne_zero hsin) hprod
    rw [hcancel]
    ring

/-- While `i * 2` is exact the segment of counter `i` is the regular one. -/
theorem next_xy_eq (n : Int) (s : ℝ) (i : ℕ) (hi : i < 1073741824) :
    (Polygon.mk n s).next_x (Cmath.mk Real.pi Real.cos Real.sin) (i : Int)
      = s * Real.cos ((i : ℝ) * 2 * Real.pi / (n : ℝ))
    ∧ (Polygon.mk n s).next_y (Cmath.mk Real.pi Real.cos Real.sin) (i : Int)
      = s * Real.sin ((i : ℝ) * 2 * Real.pi / (n : ℝ)) := by
  unfold Polygon.next_x Polygon.next_y
  rw [current_direction_eq (Cmath.mk Real.pi Real.cos Real.sin) n s i hi]
  exact ⟨rfl, rfl⟩

/-- The sums of the emitted segments of a polygon whose counter never
reaches `2^30`. -/
theorem sum_next_xy (N : ℕ) (hN : 2 ≤ N) (hb : N ≤ 1073741825) (s : ℝ) :
    (Finset.sum (Finset.range (N - 1)) fun i =>
        (Polygon.mk (N : Int) s).next_x (Cmath.mk Real.pi Real.cos Real.sin) (i : Int))
      = -(s * Real.cos (((N : ℝ) - 1) * 2 * Real.pi / (N : ℝ)))
    ∧ (Finset.sum (Finset.range (N - 1)) fun i =>
        (Polygon.mk (N : Int) s).next_y (Cmath.mk Real.pi Real.cos Real.sin) (i : Int))
      = -(s * Real.sin (((N : ℝ) - 1) * 2 * Real.pi / (N : ℝ))) := by
  obtain ⟨hx, hy⟩ := sum_regular_edges N hN s
  have hlt : ∀ i ∈ Finset.range (N - 1), i < 1073741824 := by
    intro i hi
    have := Finset.mem_range.mp hi
    omega
  constructor
  · rw [← hx]
    apply Finset.sum_congr rfl
    intro i hi
    rw [(next_xy_eq (N : Int) s i (hlt i hi)).1, Int.cast_natCast]
  · rw [← hy]
    apply Finset.sum_congr rfl
    intro i hi
    rw [(next_xy_eq (N : Int) s i (hlt i hi)).2, Int.cast_natCast]

/-- C18, amended: for every `int` `n` with `3 <= n <= 2^30 + 1` and every
side length `s`, the text of `Polygon(n, s)` holds exactly `n-1` `rlineto`
segments `(next_x, next_y)`, and over the reals their vector sum is minus
`(s*cos((n-1)*2*pi/n), s*sin((n-1)*2*pi/n))`: the edge `closepath` implies
is the next edge of the turning sequence, and its length is `|s|`. -/
theorem C18_polygon_closing_edge (n : Int) (s : ℝ) (h3 : 3 ≤ n) (hb : n ≤ 1073741825) :
    (makePolygon (Cmath.mk Real.pi Real.cos Real.sin) n s).getPostScript
      = [Piece.lit "gsave\n", Piece.num (-s / 2), Piece.lit " ",
          Piece.num (-(makePolygon (Cmath.mk Real.pi Real.cos Real.sin) n s).getHeight / 2),
          Piece.lit " rmoveto\n"]
        ++ (List.range (wrapInt (n - 1)).toNat).flatMap
            (fun i =>
              [Piece.num ((Polygon.mk n s).next_x (Cmath.mk Real.pi Real.cos Real.sin) (i : Int)),
                Piece.lit " ",
                Piece.num ((Polygon.mk n s).next_y (Cmath.mk Real.pi Real.cos Real.sin) (i : Int)),
                Piece.lit " rlineto\n"])
        ++ [Piece.lit "closepath\nstroke\ngrestore\n"]
    ∧ (((wrapInt (n - 1)).toNat : ℕ) : Int) = n - 1
    ∧ (Finset.sum (Finset.range (wrapInt (n - 1)).toNat) fun i =>
        (Polygon.mk n s).next_x (Cmath.mk Real.pi Real.cos Real.sin) (i : Int))
      = -(s * Real.cos (((n : ℝ) - 1) * 2 * Real.pi / (n : ℝ)))
    ∧ (Finset.sum (Finset.range (wrapInt (n - 1)).toNat) fun i =>
        (Polygon.mk n s).next_y (Cmath.mk Real.pi Real.cos Real.sin) (i : Int))
      = -(s * Real.sin (((n : ℝ) - 1) * 2 * Real.pi / (n : ℝ)))
    ∧ Real.sqrt
        ((Finset.sum (Finset.range (wrapInt (n - 1)).toNat) fun i =>
            (Polygon.mk n s).next_x (Cmath.mk Real.pi Real.cos Real.sin) (i : Int)) ^ 2
          + (Finset.sum (Finset.range (wrapInt (n - 1)).toNat) fun i =>
            (Polygon.mk n s).next_y (Cmath.mk Real.pi Real.cos Real.sin) (i : Int)) ^ 2)
      = |s| := by
  obtain ⟨N, rfl⟩ := Int.eq_ofNat_of_zero_le (show (0 : Int) ≤ n by omega)
  have hk : (wrapInt ((N : Int) - 1)).toNat = N - 1 := by
    rw [wrapInt_eq_self ((N : Int) - 1) (by omega) (by omega)]
    omega
  obtain ⟨hx, hy⟩ := sum_next_xy N (by omega) (by omega) s
  rw [Int.cast_natCast] at *
  refine ⟨getPostScript_makePolygon _ _ _, ?_, ?_, ?_, ?_⟩
  · rw [hk]
    omega
  · rw [hk]
    exact hx
  · rw [hk]
    exact hy
  · rw [hk, hx, hy]
    have hsq : (-(s * Real.cos (((N : ℝ) - 1) * 2 * Real.pi / (N : ℝ)))) ^ 2
        + (-(s * Real.sin (((N : ℝ) - 1) * 2 * Real.pi / (N : ℝ)))) ^ 2 = s ^ 2 := by
      have h1 := Real.sin_sq_add_cos_sq (((N : ℝ) - 1) * 2 * Real.pi / (N : ℝ))
      linear_combination s ^ 2 * h1
    rw [hsq, Real.sqrt_sq_eq_abs]

/-- C18 at the pentagon `Polygon(5, 2)`: the four emitted segments add up to
minus the fifth edge, of length `|2|`. -/
theorem C18_polygon_closing_edge_witness :
    (3 : Int) ≤ 5 ∧ (5 : Int) ≤ 1073741825
    ∧ (Finset.sum (Finset.range (wrapInt ((5 : Int) - 1)).toNat) fun i =>
        (Polygon.mk 5 (2 : ℝ)).next_x (Cmath.mk Real.pi Real.cos Real.sin) (i : Int))
      = -(2 * Real.cos ((((5 : Int) : ℝ) - 1) * 2 * Real.pi / ((5 : Int) : ℝ)))
    ∧ (Finset.sum (Finset.range (wrapInt ((5 : Int) - 1)).toNat) fun i =>
        (Polygon.mk 5 (2 : ℝ)).next_y (Cmath.mk Real.pi Real.cos Real.sin) (i : Int))
      = -(2 * Real.sin ((((5 : Int) : ℝ) - 1) * 2 * Real.pi / ((5 : Int) : ℝ)))
    ∧ Real.sqrt
        ((Finset.sum (Finset.range (wrapInt ((5 : Int) - 1)).toNat) fun i =>
            (Polygon.mk 5 (2 : ℝ)).next_x (Cmath.mk Real.pi Real.cos Real.sin) (i : Int)) ^ 2
          + (Finset.sum (Finset.range (wrapInt ((5 : Int) - 1)).toNat) fun i =>
            (Polygon.mk 5 (2 : ℝ)).next_y (Cmath.mk Real.pi Real.cos Real.sin) (i : Int)) ^ 2)
      = |(2 : ℝ)| :=
  ⟨by decide, by decide,
    (C18_polygon_closing_edge 5 2 (by decide) (by decide)).2.2⟩

/-- C18, as stated, fails: `1073741826 >= 3`, and over the reals the vertical
parts of the `1073741825` segments `Polygon(1073741826, 1)` emits do not add
up to `-(s*sin((n-1)*2*pi/n))`. The last segment, of counter `2^30`, is
computed from the `int` product `i * 2 = -2^31`. -/
theorem C18_closing_edge_overflow :
    (3 : Int) ≤ 1073741826 ∧ (1073741826 : Int) ≤ 2147483647
    ∧ (Finset.sum (Finset.range (wrapInt ((1073741826 : Int) - 1)).toNat) fun i =>
        (Polygon.mk 1073741826 (1 : ℝ)).next_y (Cmath.mk Real.pi Real.cos Real.sin) (i : Int))
      ≠ -(1 * Real.sin ((((1073741826 : Int) : ℝ) - 1) * 2 * Real.pi
            / ((1073741826 : Int) : ℝ))) := by
  refine ⟨by decide, by decide, ?_⟩
  have hk : (wrapInt ((1073741826 : Int) - 1)).toNat = 1073741824 + 1 := by decide
  have hreg := (sum_regular_edges 1073741826 (by norm_num) 1).2
  have hN : (1073741826 - 1 : ℕ) = 1073741824 + 1 := by norm_num
  rw [hN, Finset.sum_range_succ] at hreg
  have hc1 : (((1073741826 : Int) : ℝ)) = ((1073741826 : ℕ) : ℝ) := by
    rw [Int.cast_ofNat, Nat.cast_ofNat]
  have hcongr : (Finset.sum (Finset.range 1073741824) fun i =>
        (Polygon.mk 1073741826 (1 : ℝ)).next_y (Cmath.mk Real.pi Real.cos Real.sin) (i : Int))
      = Finset.sum (Finset.range 1073741824) fun i =>
          1 * Real.sin ((i : ℝ) * 2 * Real.pi / ((1073741826 : ℕ) : ℝ)) := by
    apply Finset.sum_congr rfl
    intro i hi
    rw [(next_xy_eq 1073741826 1 i (Finset.mem_range.mp hi)).2, hc1]
  have hpos := next_y_wrapped_pos
  have hneg := described_y_neg
  rw [hc1] at hneg ⊢
  rw [hk, Finset.sum_range_succ, hcongr]
  intro h
  rw [← hreg] at h
  rw [add_left_cancel h] at hpos
  exact lt_asymm hpos hneg

/-- The partial sums of the vertical parts of the edges of a regular `N`-gon,
multiplied by `2*sin(pi/N)`: they are non-negative, at most `2*cos(pi/N)`
for an even `N`, and at most `1 + cos(pi/N)`. -/
theorem partial_sum_sin_bounds (N k : ℕ) (hN : 3 ≤ N) (hk : k ≤ N - 1) :
    0 ≤ 2 * Real.sin (Real.pi / (N : ℝ))
          * (Finset.sum (Finset.range k) fun i => Real.sin (2 * (i : ℝ) * (Real.pi / (N : ℝ))))
    ∧ (Even N → 2 * Real.sin (Real.pi / (N : ℝ))
          * (Finset.sum (Finset.range k) fun i => Real.sin (2 * (i : ℝ) * (Real.pi / (N : ℝ))))
        ≤ 2 * Real.cos (Real.pi / (N : ℝ)))
    ∧ 2 * Real.sin (Real.pi / (N : ℝ))
          * (Finset.sum (Finset.range k) fun i => Real.sin (2 * (i : ℝ) * (Real.pi / (N : ℝ))))
        ≤ 1 + Real.cos (Real.pi / (N : ℝ)) := by
  have hpi := Real.pi_pos
  have hN3 : (3 : ℝ) ≤ (N : ℝ) := by exact_mod_cast hN
  have hkN : (k : ℝ) ≤ (N : ℝ) - 1 := by
    have : k + 1 ≤ N := by omega
    have h : ((k + 1 : ℕ) : ℝ) ≤ (N : ℝ) := by exact_mod_cast this
    push_cast at h
    linarith
  have ha0 : 0 < Real.pi / (N : ℝ) := by positivity
  have haN : (N : ℝ) * (Real.pi / (N : ℝ)) = Real.pi := by field_simp
  rw [two_sin_mul_sum_sin]
  set a := Real.pi / (N : ℝ) with ha
  have hlow : Real.cos ((2 * (k : ℝ) - 1) * a) ≤ Real.cos a := by
    rcases Nat.eq_zero_or_pos k with h0 | h0
    · subst h0
      have h : (2 * ((0 : ℕ) : ℝ) - 1) * a = -a := by push_cast; ring
      rw [h, Real.cos_neg]
    · have hk1 : (1 : ℝ) ≤ (k : ℝ) := by exact_mod_cast h0
      apply cos_le_cos_of_between a _ ha0.le
      · nlinarith
      · nlinarith
  refine ⟨by linarith, ?_, ?_⟩
  · intro hev
    have hj : (1 : ℝ) ≤ (N : ℝ) - 2 * (k : ℝ) + 1 ∨ (N : ℝ) - 2 * (k : ℝ) + 1 ≤ -1 := by
      obtain ⟨r, hr⟩ := hev
      rcases Nat.lt_or_ge (2 * k) (N + 1) with h | h
      · left
        have h' : 2 * k + 1 ≤ N + 1 := by omega
        have h'' : ((2 * k + 1 : ℕ) : ℝ) ≤ ((N + 1 : ℕ) : ℝ) := by exact_mod_cast h'
        push_cast at h''
        linarith
      · right
        have h' : N + 3 ≤ 2 * k + 1 := by omega
        have h'' : ((N + 3 : ℕ) : ℝ) ≤ ((2 * k + 1 : ℕ) : ℝ) := by exact_mod_cast h'
        push_cast at h''
        linarith
    have hneg : -Real.cos ((2 * (k : ℝ) - 1) * a)
        = Real.cos (((N : ℝ) - 2 * (k : ℝ) + 1) * a) := by
      have : ((N : ℝ) - 2 * (k : ℝ) + 1) * a = Real.pi - (2 * (k : ℝ) - 1) * a := by
        rw [← haN]
        ring
      rw [this, Real.cos_pi_sub]
    have hup : Real.cos (((N : ℝ) - 2 * (k : ℝ) + 1) * a) ≤ Real.cos a := by
      rcases hj with hj | hj
      · apply cos_le_cos_of_between a _ ha0.le
        · nlinarith
        · have hk0 : (0 : ℝ) ≤ (k : ℝ) := Nat.cast_nonneg k
          nlinarith
      · rw [← Real.cos_neg]
        apply cos_le_cos_of_between a _ ha0.le
        · nlinarith
        · nlinarith
    linarith
  · have := Real.neg_one_le_cos ((2 * (k : ℝ) - 1) * a)
    linarith

/-- From counter `2^30` on, for a side count between `2^30` and `2^31`, the
`int` product `i * 2` is `2*i - 2^32`, and the segment is the regular one of
index `i - (2^31 - N)`. -/
theorem next_y_wrapped (N : ℕ) (hN1 : 1073741824 < N) (hN2 : N < 2147483648) (s : ℝ) (i : ℕ)
    (hi1 : 1073741824 ≤ i) (hi2 : i < 2147483648) :
    (Polygon.mk (N : Int) s).next_y (Cmath.mk Real.pi Real.cos Real.sin) (i : Int)
      = s * Real.sin (2 * ((i : ℝ) - (2147483648 - (N : ℝ))) * (Real.pi / (N : ℝ))) := by
  have hw : wrapInt ((i : Int) * 2) = (i : Int) * 2 - 4294967296 := by
    unfold wrapInt
    omega
  have hN0 : (N : ℝ) ≠ 0 := by
    have : (0 : ℝ) < (N : ℝ) := by exact_mod_cast (by omega : 0 < N)
    exact this.ne'
  unfold Polygon.next_y Polygon.current_direction
  rw [hw]
  show s * Real.sin ((((i : Int) * 2 - 4294967296 : Int) : ℝ) * Real.pi / (((N : ℕ) : Int) : ℝ))
    = _
  have harg : (((i : Int) * 2 - 4294967296 : Int) : ℝ) * Real.pi / (((N : ℕ) : Int) : ℝ)
      = 2 * ((i : ℝ) - (2147483648 - (N : ℝ))) * (Real.pi / (N : ℝ)) - 2 * Real.pi := by
    push_cast
    field_simp
    ring
  rw [harg, Real.sin_sub_two_pi]

/-- The sum of the vertical parts of the first `2^30 + u` segments of a
polygon of `N` sides, `2^30 < N < 2^31`, multiplied by `2*sin(pi/N)`. -/
theorem two_sin_mul_sum_next_y (N : ℕ) (hN1 : 1073741824 < N) (hN2 : N < 2147483648) (s : ℝ)
    (u : ℕ) (hu : 1073741824 + u ≤ 2147483648) :
    2 * Real.sin (Real.pi / (N : ℝ))
        * (Finset.sum (Finset.range (1073741824 + u)) fun i =>
            (Polygon.mk (N : Int) s).next_y (Cmath.mk Real.pi Real.cos Real.sin) (i : Int))
      = s * (Real.cos (Real.pi / (N : ℝ))
          + 2 * Real.sin ((2147483648 - (N : ℝ)) * (Real.pi / (N : ℝ)))
              * Real.sin (Real.pi / (N : ℝ))
          - Real.cos ((2 * (((N - 1073741824 + u : ℕ)) : ℝ) - 1) * (Real.pi / (N : ℝ)))) := by
  have hN0 : (N : ℝ) ≠ 0 := by
    have : (0 : ℝ) < (N : ℝ) := by exact_mod_cast (by omega : 0 < N)
    exact this.ne'
  have haN : (N : ℝ) * (Real.pi / (N : ℝ)) = Real.pi := by field_simp
  have he : ((N - 1073741824 : ℕ) : ℝ) = (N : ℝ) - 1073741824 := by
    rw [Nat.cast_sub (by omega)]
    norm_num
  -- the first `2^30` segments are regular, the others are regular ones of a shifted index
  have hfirst : (Finset.sum (Finset.range 1073741824) fun i =>
        (Polygon.mk (N : Int) s).next_y (Cmath.mk Real.pi Real.cos Real.sin) (i : Int))
      = s * Finset.sum (Finset.range 1073741824) fun i =>
          Real.sin (2 * (i : ℝ) * (Real.pi / (N : ℝ))) := by
    rw [Finset.mul_sum]
    apply Finset.sum_congr rfl
    intro i hi
    rw [(next_xy_eq (N : Int) s i (Finset.mem_range.mp hi)).2, Int.cast_natCast]
    congr 2
    ring
  have hrest : (Finset.sum (Finset.range u) fun t =>
        (Polygon.mk (N : Int) s).next_y (Cmath.mk Real.pi Real.cos Real.sin)
          ((1073741824 + t : ℕ) : Int))
      = s * Finset.sum (Finset.range u) fun t =>
          Real.sin (2 * (((N - 1073741824 + t : ℕ)) : ℝ) * (Real.pi / (N : ℝ))) := by
    rw [Finset.mul_sum]
    apply Finset.sum_congr rfl
    intro t ht
    have ht' := Finset.mem_range.mp ht
    have hcast : ((1073741824 + t : ℕ) : ℝ) - (2147483648 - (N : ℝ))
        = ((N - 1073741824 + t : ℕ) : ℝ) := by
      rw [Nat.cast_add, Nat.cast_add, he, Nat.cast_ofNat]
      ring
    rw [next_y_wrapped N hN1 hN2 s (1073741824 + t) (by omega) (by omega), hcast]
  have hsplit := Finset.sum_range_add (fun i : ℕ =>
      (Polygon.mk (N : Int) s).next_y (Cmath.mk Real.pi Real.cos Real.sin) (i : Int))
      1073741824 u
  have hsplit' := Finset.sum_range_add (fun i : ℕ =>
      Real.sin (2 * (i : ℝ) * (Real.pi / (N : ℝ)))) (N - 1073741824) u
  have h1 := two_sin_mul_sum_sin (Real.pi / (N : ℝ)) 1073741824
  have h2 := two_sin_mul_sum_sin (Real.pi / (N : ℝ)) (N - 1073741824 + u)
  have h3 := two_sin_mul_sum_sin (Real.pi / (N : ℝ)) (N - 1073741824)
  have ha1 : (2 * ((1073741824 : ℕ) : ℝ) - 1) * (Real.pi / (N : ℝ))
      = Real.pi + ((2147483648 - (N : ℝ)) * (Real.pi / (N : ℝ)) - Real.pi / (N : ℝ)) := by
    rw [Nat.cast_ofNat]
    nth_rewrite 2 [← haN]
    ring
  have ha3 : (2 * ((N - 1073741824 : ℕ) : ℝ) - 1) * (Real.pi / (N : ℝ))
      = Real.pi - ((2147483648 - (N : ℝ)) * (Real.pi / (N : ℝ)) + Real.pi / (N : ℝ)) := by
    rw [he]
    nth_rewrite 2 [← haN]
    ring
  rw [ha1, Real.cos_add, Real.cos_pi, Real.sin_pi, Real.cos_sub] at h1
  rw [ha3, Real.cos_pi_sub, Real.cos_add] at h3
  rw [hsplit, hfirst, hrest]
  rw [hsplit'] at h2
  linear_combination s * h1 + s * h2 - s * h3

/-- The numeric core of the bound: for `a = pi/N` in the range of the side
counts concerned, `1 - cos(42697*a)` exceeds `2*a + a^2/2`. -/
theorem band_numeric_core (a : ℝ) (halo : (21943 : ℝ) / 10000000000000 ≤ a)
    (hahi : a ≤ 3 / 1000000000) :
    2 * a + a ^ 2 / 2 ≤ (42697 * a) ^ 2 / 2 - (42697 * a) ^ 4 * (5 / 96) := by
  have ha0 : 0 < a := by linarith
  have h3 : a ^ 3 ≤ (3 / 1000000000) ^ 3 := pow_le_pow_left₀ ha0.le hahi 3
  have hlin : (911516904 : ℝ) * a ≥ 2 + 1 / 10000 := by linarith
  have hcub : (42697 : ℝ) ^ 4 * (5 / 96) * a ^ 3 ≤ 1 / 100000 := by
    calc (42697 : ℝ) ^ 4 * (5 / 96) * a ^ 3
        ≤ (42697 : ℝ) ^ 4 * (5 / 96) * (3 / 1000000000) ^ 3 :=
          mul_le_mul_of_nonneg_left h3 (by positivity)
      _ ≤ 1 / 100000 := by norm_num
  have hfac : (42697 * a) ^ 2 / 2 - (42697 * a) ^ 4 * (5 / 96) - (2 * a + a ^ 2 / 2)
      = a * ((911516904 : ℝ) * a - 2 - (42697 : ℝ) ^ 4 * (5 / 96) * a ^ 3) := by
    ring
  have hinner : 0 ≤ (911516904 : ℝ) * a - 2 - (42697 : ℝ) ^ 4 * (5 / 96) * a ^ 3 := by
    linarith
  have := mul_nonneg ha0.le hinner
  linarith

/-- For a side count `N` between `2^30 + 2` and `1431641534` the vertices a
polygon reaches after its counter has passed `2^30` stay in the band: the
value of `two_sin_mul_sum_next_y` lies between `0` and `2*cos(pi/N)`. -/
theorem wrapped_vertex_bounds (N u : ℕ) (hN1 : 1073741826 ≤ N) (hN2 : N ≤ 1431641534)
    (hu : 1073741824 + u ≤ N - 1) :
    0 ≤ Real.cos (Real.pi / (N : ℝ))
          + 2 * Real.sin ((2147483648 - (N : ℝ)) * (Real.pi / (N : ℝ)))
              * Real.sin (Real.pi / (N : ℝ))
          - Real.cos ((2 * (((N - 1073741824 + u : ℕ)) : ℝ) - 1) * (Real.pi / (N : ℝ)))
    ∧ Real.cos (Real.pi / (N : ℝ))
          + 2 * Real.sin ((2147483648 - (N : ℝ)) * (Real.pi / (N : ℝ)))
              * Real.sin (Real.pi / (N : ℝ))
          - Real.cos ((2 * (((N - 1073741824 + u : ℕ)) : ℝ) - 1) * (Real.pi / (N : ℝ)))
        ≤ 2 * Real.cos (Real.pi / (N : ℝ)) := by
  have hpi := Real.pi_pos
  have hpi1 := Real.pi_gt_d6
  have hpi2 := Real.pi_lt_d6
  have hNlo : (1073741826 : ℝ) ≤ (N : ℝ) := by exact_mod_cast hN1
  have hNhi : (N : ℝ) ≤ 1431641534 := by exact_mod_cast hN2
  have hNpos : (0 : ℝ) < (N : ℝ) := by linarith
  have haN : (N : ℝ) * (Real.pi / (N : ℝ)) = Real.pi := by field_simp
  have hm : ((N - 1073741824 + u : ℕ) : ℝ) = (N : ℝ) - 1073741824 + (u : ℝ) := by
    rw [Nat.cast_add, Nat.cast_sub (by omega)]
    norm_num
  have hu0 : (0 : ℝ) ≤ (u : ℝ) := Nat.cast_nonneg u
  have hu1 : (1073741824 : ℝ) + (u : ℝ) ≤ (N : ℝ) - 1 := by
    have h : 1073741824 + u + 1 ≤ N := by omega
    have h' : ((1073741824 + u + 1 : ℕ) : ℝ) ≤ (N : ℝ) := by exact_mod_cast h
    push_cast at h'
    linarith
  set a := Real.pi / (N : ℝ) with ha
  have ha0 : 0 < a := by positivity
  have halo : (21943 : ℝ) / 10000000000000 ≤ a := by
    rw [ha, le_div_iff₀ hNpos]
    nlinarith
  have hahi : a ≤ 3 / 1000000000 := by
    rw [ha, div_le_iff₀ hNpos]
    nlinarith
  have hsina0 : 0 ≤ Real.sin a := Real.sin_nonneg_of_nonneg_of_le_pi ha0.le (by nlinarith)
  have hsina : Real.sin a ≤ a := Real.sin_le ha0.le
  have hcosa : 1 - a ^ 2 / 2 ≤ Real.cos a := Real.one_sub_sq_div_two_le_cos
  have hsind0 : 0 ≤ Real.sin ((2147483648 - (N : ℝ)) * a) := by
    apply Real.sin_nonneg_of_nonneg_of_le_pi
    · apply mul_nonneg (by linarith) ha0.le
    · rw [← haN]
      apply mul_le_mul_of_nonneg_right (by linarith) ha0.le
  have hsind1 : Real.sin ((2147483648 - (N : ℝ)) * a) ≤ 1 := Real.sin_le_one _
  have hprod0 : 0 ≤ Real.sin ((2147483648 - (N : ℝ)) * a) * Real.sin a :=
    mul_nonneg hsind0 hsina0
  have hprod1 : Real.sin ((2147483648 - (N : ℝ)) * a) * Real.sin a ≤ a := by
    calc Real.sin ((2147483648 - (N : ℝ)) * a) * Real.sin a
        ≤ 1 * Real.sin a := mul_le_mul_of_nonneg_right hsind1 hsina0
      _ = Real.sin a := one_mul _
      _ ≤ a := hsina
  rw [hm]
  set φ := (2 * ((N : ℝ) - 1073741824 + (u : ℝ)) - 1) * a with hφ
  have hφlo : a ≤ φ := by
    rw [hφ]
    nlinarith
  have hφhi : φ ≤ Real.pi - (4294967299 - 3 * (N : ℝ)) * a := by
    have : Real.pi - (4294967299 - 3 * (N : ℝ)) * a
        = (2 * ((N : ℝ) - 1) - 1 - 2 * (2147483648 - (N : ℝ))) * a := by
      rw [← haN]
      ring
    rw [this, hφ]
    apply mul_le_mul_of_nonneg_right _ ha0.le
    linarith
  have hj : (42697 : ℝ) ≤ 4294967299 - 3 * (N : ℝ) := by linarith
  constructor
  · have hcosφ : Real.cos φ ≤ Real.cos a := by
      apply cos_le_cos_of_between a φ ha0.le hφlo
      have : (0 : ℝ) ≤ (4294967299 - 3 * (N : ℝ)) * a := mul_nonneg (by linarith) ha0.le
      linarith
    linarith
  · -- `-cos φ ≤ cos (j*a) ≤ cos (42697*a)`
    have hy0 : (0 : ℝ) ≤ 42697 * a := by positivity
    have hy1 : 42697 * a ≤ (4294967299 - 3 * (N : ℝ)) * a :=
      mul_le_mul_of_nonneg_right hj ha0.le
    have hjpi : (4294967299 - 3 * (N : ℝ)) * a ≤ Real.pi := by
      rw [← haN]
      apply mul_le_mul_of_nonneg_right (by linarith) ha0.le
    have hstep1 : Real.cos (Real.pi - (4294967299 - 3 * (N : ℝ)) * a) ≤ Real.cos φ :=
      Real.cos_le_cos_of_nonneg_of_le_pi (by linarith) (by linarith) hφhi
    rw [Real.cos_pi_sub] at hstep1
    have hstep2 : Real.cos ((4294967299 - 3 * (N : ℝ)) * a) ≤ Real.cos (42697 * a) :=
      Real.cos_le_cos_of_nonneg_of_le_pi hy0 hjpi hy1
    have hy01 : |42697 * a| ≤ 1 := by
      rw [abs_of_nonneg hy0]
      linarith
    have hb := Real.cos_bound hy01
    rw [abs_of_nonneg hy0] at hb
    have hb' := (abs_le.mp hb).2
    have hcore := band_numeric_core a halo hahi
    linarith

/-- C19, amended: for every `int` `n` with `3 <= n <= 1431641534` and every
`s > 0`, the text of `Polygon(n, s)` moves to `(-s/2, -H/2)` with
`H = Polygon(n, s).getHeight()` and then holds exactly `n-1` `rlineto`
segments `(next_x, next_y)`; adding their vertical parts one by one to
`-H/2`, every vertex reached, after `k <= n-1` segments, has its height in
`[-H/2, H/2]` over the reals, and the first segment is horizontal, so that
the first edge lies on `y = -H/2`. -/
theorem C19_polygon_path_within_height (n : Int) (s : ℝ) (h3 : 3 ≤ n) (hb : n ≤ 1431641534)
    (hs : 0 < s) :
    (makePolygon (Cmath.mk Real.pi Real.cos Real.sin) n s).getPostScript
      = [Piece.lit "gsave\n", Piece.num (-s / 2), Piece.lit " ",
          Piece.num (-(makePolygon (Cmath.mk Real.pi Real.cos Real.sin) n s).getHeight / 2),
          Piece.lit " rmoveto\n"]
        ++ (List.range (wrapInt (n - 1)).toNat).flatMap
            (fun i =>
              [Piece.num ((Polygon.mk n s).next_x (Cmath.mk Real.pi Real.cos Real.sin) (i : Int)),
                Piece.lit " ",
                Piece.num ((Polygon.mk n s).next_y (Cmath.mk Real.pi Real.cos Real.sin) (i : Int)),
                Piece.lit " rlineto\n"])
        ++ [Piece.lit "closepath\nstroke\ngrestore\n"]
    ∧ (((wrapInt (n - 1)).toNat : ℕ) : Int) = n - 1
    ∧ (∀ k : ℕ, k ≤ (wrapInt (n - 1)).toNat →
      -(makePolygon (Cmath.mk Real.pi Real.cos Real.sin) n s).getHeight / 2
        ≤ -(makePolygon (Cmath.mk Real.pi Real.cos Real.sin) n s).getHeight / 2
          + (Finset.sum (Finset.range k) fun i =>
              (Polygon.mk n s).next_y (Cmath.mk Real.pi Real.cos Real.sin) (i : Int))
      ∧ -(makePolygon (Cmath.mk Real.pi Real.cos Real.sin) n s).getHeight / 2
          + (Finset.sum (Finset.range k) fun i =>
              (Polygon.mk n s).next_y (Cmath.mk Real.pi Real.cos Real.sin) (i : Int))
        ≤ (makePolygon (Cmath.mk Real.pi Real.cos Real.sin) n s).getHeight / 2)
    ∧ (Polygon.mk n s).next_y (Cmath.mk Real.pi Real.cos Real.sin) ((0 : ℕ) : Int) = 0 := by
  obtain ⟨N, rfl⟩ := Int.eq_ofNat_of_zero_le (show (0 : Int) ≤ n by omega)
  have hN : 3 ≤ N := by omega
  have hNb : N ≤ 1431641534 := by omega
  have hcount : (wrapInt ((N : Int) - 1)).toNat = N - 1 := by
    rw [wrapInt_eq_self ((N : Int) - 1) (by omega) (by omega)]
    omega
  have hpi := Real.pi_pos
  have hN3 : (3 : ℝ) ≤ (N : ℝ) := by exact_mod_cast hN
  have ha0 : 0 < Real.pi / (N : ℝ) := by positivity
  have hapi : Real.pi / (N : ℝ) < Real.pi := by
    rw [div_lt_iff₀ (by linarith)]
    nlinarith
  have hsin : 0 < Real.sin (Real.pi / (N : ℝ)) := Real.sin_pos_of_pos_of_lt_pi ha0 hapi
  have hcos1 : Real.cos (Real.pi / (N : ℝ)) ≤ 1 := Real.cos_le_one _
  refine ⟨getPostScript_makePolygon _ _ _, ?_, ?_, ?_⟩
  · rw [hcount]
    omega
  · intro k hk
    rw [hcount] at hk
    -- the sum, multiplied by `2*sin(pi/N)`, lies between `0` and the height's numerator
    have hkey : 0 ≤ 2 * Real.sin (Real.pi / (N : ℝ))
          * (Finset.sum (Finset.range k) fun i =>
              (Polygon.mk (N : Int) s).next_y (Cmath.mk Real.pi Real.cos Real.sin) (i : Int))
        ∧ (Even N → 2 * Real.sin (Real.pi / (N : ℝ))
            * (Finset.sum (Finset.range k) fun i =>
                (Polygon.mk (N : Int) s).next_y (Cmath.mk Real.pi Real.cos Real.sin) (i : Int))
          ≤ s * (2 * Real.cos (Real.pi / (N : ℝ))))
        ∧ 2 * Real.sin (Real.pi / (N : ℝ))
            * (Finset.sum (Finset.range k) fun i =>
                (Polygon.mk (N : Int) s).next_y (Cmath.mk Real.pi Real.cos Real.sin) (i : Int))
          ≤ s * (1 + Real.cos (Real.pi / (N : ℝ))) := by
      rcases le_or_lt k 1073741824 with hsmall | hlarge
      · obtain ⟨hlow, heven, hodd⟩ := partial_sum_sin_bounds N k hN hk
        have hsum : (Finset.sum (Finset.range k) fun i =>
              (Polygon.mk (N : Int) s).next_y (Cmath.mk Real.pi Real.cos Real.sin) (i : Int))
            = s * (Finset.sum (Finset.range k) fun i =>
                Real.sin (2 * (i : ℝ) * (Real.pi / (N : ℝ)))) := by
          rw [Finset.mul_sum]
          apply Finset.sum_congr rfl
          intro i hi
          have hi' : i < 1073741824 := by
            have := Finset.mem_range.mp hi
            omega
          rw [(next_xy_eq (N : Int) s i hi').2, Int.cast_natCast]
          congr 2
          ring
        rw [hsum]
        refine ⟨?_, ?_, ?_⟩
        · have := mul_nonneg hs.le hlow
          linarith
        · intro hev
          have := mul_le_mul_of_nonneg_left (heven hev) hs.le
          linarith
        · have := mul_le_mul_of_nonneg_left hodd hs.le
          linarith
      · obtain ⟨u, rfl⟩ := Nat.exists_eq_add_of_le hlarge.le
        have hN1 : 1073741826 ≤ N := by omega
        have hform := two_sin_mul_sum_next_y N (by omega) (by omega) s u (by omega)
        obtain ⟨hT0, hT1⟩ := wrapped_vertex_bounds N u hN1 hNb hk
        rw [hform]
        refine ⟨mul_nonneg hs.le hT0, ?_, ?_⟩
        · intro _
          exact mul_le_mul_of_nonneg_left hT1 hs.le
        · exact mul_le_mul_of_nonneg_left (by linarith) hs.le
    obtain ⟨hk0, hkeven, hkodd⟩ := hkey
    rw [getHeight_makePolygon]
    set W := Finset.sum (Finset.range k) fun i =>
      (Polygon.mk (N : Int) s).next_y (Cmath.mk Real.pi Real.cos Real.sin) (i : Int) with hW
    have hW0 : 0 ≤ W := by
      by_contra hneg
      push_neg at hneg
      nlinarith
    simp only [Int.cast_natCast, Int.even_coe_nat]
    split_ifs with hev
    · have hH : W ≤ s * Real.cos (Real.pi / (N : ℝ)) / Real.sin (Real.pi / (N : ℝ)) := by
        rw [le_div_iff₀ hsin]
        have := hkeven hev
        nlinarith
      constructor <;> linarith
    · have hH : W ≤ s * (1 + Real.cos (Real.pi / (N : ℝ)))
          / (2 * Real.sin (Real.pi / (N : ℝ))) := by
        rw [le_div_iff₀ (by linarith)]
        nlinarith
      constructor <;> linarith
  · rw [(next_xy_eq (N : Int) s 0 (by norm_num)).2]
    simp

/-- C19 at the hexagon `Polygon(6, 2)`: its text, and its vertex after three
of the five segments. -/
theorem C19_polygon_path_within_height_witness :
    (3 : Int) ≤ 6 ∧ (6 : Int) ≤ 1431641534 ∧ (0 : ℝ) < 2
    ∧ (makePolygon (Cmath.mk Real.pi Real.cos Real.sin) 6 (2 : ℝ)).getPostScript
      = [Piece.lit "gsave\n", Piece.num (-(2 : ℝ) / 2), Piece.lit " ",
          Piece.num (-(makePolygon (Cmath.mk Real.pi Real.cos Real.sin) 6 (2 : ℝ)).getHeight / 2),
          Piece.lit " rmoveto\n"]
        ++ (List.range (wrapInt ((6 : Int) - 1)).toNat).flatMap
            (fun i =>
              [Piece.num ((Polygon.mk 6 (2 : ℝ)).next_x (Cmath.mk Real.pi Real.cos Real.sin)
                  (i : Int)),
                Piece.lit " ",
                Piece.num ((Polygon.mk 6 (2 : ℝ)).next_y (Cmath.mk Real.pi Real.cos Real.sin)
                  (i : Int)),
                Piece.lit " rlineto\n"])
        ++ [Piece.lit "closepath\nstroke\ngrestore\n"]
    ∧ 3 ≤ (wrapInt ((6 : Int) - 1)).toNat
    ∧ -(makePolygon (Cmath.mk Real.pi Real.cos Real.sin) 6 (2 : ℝ)).getHeight / 2
        ≤ -(makePolygon (Cmath.mk Real.pi Real.cos Real.sin) 6 (2 : ℝ)).getHeight / 2
          + (Finset.sum (Finset.range 3) fun i =>
              (Polygon.mk 6 (2 : ℝ)).next_y (Cmath.mk Real.pi Real.cos Real.sin) (i : Int))
    ∧ -(makePolygon (Cmath.mk Real.pi Real.cos Real.sin) 6 (2 : ℝ)).getHeight / 2
          + (Finset.sum (Finset.range 3) fun i =>
              (Polygon.mk 6 (2 : ℝ)).next_y (Cmath.mk Real.pi Real.cos Real.sin) (i : Int))
        ≤ (makePolygon (Cmath.mk Real.pi Real.cos Real.sin) 6 (2 : ℝ)).getHeight / 2 := by
  have h := C19_polygon_path_within_height 6 2 (by decide) (by decide) (by norm_num)
  have hk : 3 ≤ (wrapInt ((6 : Int) - 1)).toNat := by decide
  exact ⟨by decide, by decide, by norm_num, h.1, hk, h.2.2.1 3 hk⟩

/-- The numeric core of the first failure: for `a = pi/1431641535`, twice
the lower bounds of `cos(42691*a/2)` and `sin a` exceed the upper bound of
`1 - cos(42694*a)`. -/
theorem band_numeric_failure (a : ℝ) (ha0 : 0 < a) (hahi : a ≤ 21944 / 10000000000000) :
    (42694 * a) ^ 2 / 2 < 2 * (1 - (42691 * a / 2) ^ 2 / 2) * (a - a ^ 3 / 4) := by
  have hy0 : 0 ≤ 42691 * a / 2 := by positivity
  have hy1 : 42691 * a / 2 ≤ 1 / 10000 := by linarith
  have hy2 : (42691 * a / 2) ^ 2 ≤ (1 / 10000) ^ 2 := pow_le_pow_left₀ hy0 hy1 2
  have ha2 : a ^ 2 ≤ (1 / 10000) ^ 2 := pow_le_pow_left₀ ha0.le (by linarith) 2
  have hP : (1 : ℝ) - 1 / 100000000 ≤ 1 - (42691 * a / 2) ^ 2 / 2 := by
    norm_num at hy2 ⊢
    linarith
  have hQ : (1 : ℝ) - 1 / 100000000 ≤ 1 - a ^ 2 / 4 := by
    norm_num at ha2 ⊢
    linarith
  have hPQ : ((1 : ℝ) - 1 / 100000000) * (1 - 1 / 100000000)
      ≤ (1 - (42691 * a / 2) ^ 2 / 2) * (1 - a ^ 2 / 4) :=
    mul_le_mul hP hQ (by norm_num) (by linarith)
  have hlin : (911388818 : ℝ) * a < 2 * (((1 : ℝ) - 1 / 100000000) * (1 - 1 / 100000000)) := by
    norm_num
    linarith
  have hinner : 0 < 2 * ((1 - (42691 * a / 2) ^ 2 / 2) * (1 - a ^ 2 / 4))
      - (911388818 : ℝ) * a := by linarith
  have hfac : 2 * (1 - (42691 * a / 2) ^ 2 / 2) * (a - a ^ 3 / 4) - (42694 * a) ^ 2 / 2
      = a * (2 * ((1 - (42691 * a / 2) ^ 2 / 2) * (1 - a ^ 2 / 4)) - (911388818 : ℝ) * a) := by
    ring
  have := mul_pos ha0 hinner
  linarith

/-- C19, as stated, fails: `1431641535 >= 3`, `1 > 0`, and over the reals
the last vertex of the path of `Polygon(1431641535, 1)`, reached after all
the `1431641534` segments of its text, lies above `H/2`. From counter
`2^30` on the segments are computed from the wrapped `int` product `i * 2`;
`1431641535` is the least side count for which the path leaves the band. -/
theorem C19_vertex_above_height :
    (3 : Int) ≤ 1431641535 ∧ (1431641535 : Int) ≤ 2147483647 ∧ (0 : ℝ) < 1
    ∧ (makePolygon (Cmath.mk Real.pi Real.cos Real.sin) 1431641535 (1 : ℝ)).getPostScript
      = [Piece.lit "gsave\n", Piece.num (-(1 : ℝ) / 2), Piece.lit " ",
          Piece.num (-(makePolygon (Cmath.mk Real.pi Real.cos Real.sin) 1431641535
            (1 : ℝ)).getHeight / 2),
          Piece.lit " rmoveto\n"]
        ++ (List.range (wrapInt ((1431641535 : Int) - 1)).toNat).flatMap
            (fun i =>
              [Piece.num ((Polygon.mk 1431641535 (1 : ℝ)).next_x
                  (Cmath.mk Real.pi Real.cos Real.sin) (i : Int)),
                Piece.lit " ",
                Piece.num ((Polygon.mk 1431641535 (1 : ℝ)).next_y
                  (Cmath.mk Real.pi Real.cos Real.sin) (i : Int)),
                Piece.lit " rlineto\n"])
        ++ [Piece.lit "closepath\nstroke\ngrestore\n"]
    ∧ ¬ (-(makePolygon (Cmath.mk Real.pi Real.cos Real.sin) 1431641535 (1 : ℝ)).getHeight / 2
          + (Finset.sum (Finset.range (wrapInt ((1431641535 : Int) - 1)).toNat) fun i =>
              (Polygon.mk 1431641535 (1 : ℝ)).next_y (Cmath.mk Real.pi Real.cos Real.sin)
                (i : Int))
        ≤ (makePolygon (Cmath.mk Real.pi Real.cos Real.sin) 1431641535 (1 : ℝ)).getHeight
            / 2) := by
  refine ⟨by decide, by decide, one_pos, getPostScript_makePolygon _ _ _, ?_⟩
  have hpi := Real.pi_pos
  have hpi2 := Real.pi_lt_d6
  have hk : (wrapInt ((1431641535 : Int) - 1)).toNat = 1073741824 + 357899710 := by decide
  have hcN : (((1431641535 : ℕ) : Int)) = (1431641535 : Int) := Nat.cast_ofNat
  have hcR : (((1431641535 : ℕ) : ℝ)) = (1431641535 : ℝ) := Nat.cast_ofNat
  have hcI : (((1431641535 : Int) : ℝ)) = (1431641535 : ℝ) := Int.cast_ofNat 1431641535
  have hidx : ((1431641535 - 1073741824 + 357899710 : ℕ) : ℝ) = (715799421 : ℝ) := by
    norm_num
  have hform := two_sin_mul_sum_next_y 1431641535 (by norm_num) (by norm_num) 1 357899710
    (by norm_num)
  rw [hcN, hcR, hidx, one_mul] at hform
  -- the angle `a = pi/n` and its bounds
  have ha0 : 0 < Real.pi / (1431641535 : ℝ) := by positivity
  have hahi : Real.pi / (1431641535 : ℝ) ≤ 21944 / 10000000000000 := by
    rw [div_le_iff₀ (by norm_num)]
    linarith
  have haN : (1431641535 : ℝ) * (Real.pi / (1431641535 : ℝ)) = Real.pi := by field_simp
  have hA : (2147483648 - (1431641535 : ℝ)) * (Real.pi / (1431641535 : ℝ))
      = 42691 * (Real.pi / (1431641535 : ℝ)) / 2 + Real.pi / 2 := by
    nth_rewrite 3 [← haN]
    ring
  have hB : (2 * (715799421 : ℝ) - 1) * (Real.pi / (1431641535 : ℝ))
      = Real.pi - 42694 * (Real.pi / (1431641535 : ℝ)) := by
    nth_rewrite 2 [← haN]
    ring
  rw [hA, Real.sin_add_pi_div_two, hB, Real.cos_pi_sub] at hform
  -- bounds on the three values
  have hsin : 0 < Real.sin (Real.pi / (1431641535 : ℝ)) :=
    Real.sin_pos_of_pos_of_lt_pi ha0 (by linarith)
  have hsinlo := Real.sin_gt_sub_cube ha0 (by linarith)
  have hcosy : 1 - (42691 * (Real.pi / (1431641535 : ℝ)) / 2) ^ 2 / 2
      ≤ Real.cos (42691 * (Real.pi / (1431641535 : ℝ)) / 2) :=
    Real.one_sub_sq_div_two_le_cos
  have hcosj : 1 - (42694 * (Real.pi / (1431641535 : ℝ))) ^ 2 / 2
      ≤ Real.cos (42694 * (Real.pi / (1431641535 : ℝ))) :=
    Real.one_sub_sq_div_two_le_cos
  have hcore := band_numeric_failure (Real.pi / (1431641535 : ℝ)) ha0 hahi
  have hylo : 0 ≤ 1 - (42691 * (Real.pi / (1431641535 : ℝ)) / 2) ^ 2 / 2 := by
    have h1 : 42691 * (Real.pi / (1431641535 : ℝ)) / 2 ≤ 1 := by linarith
    have h0 : 0 ≤ 42691 * (Real.pi / (1431641535 : ℝ)) / 2 := by positivity
    have := pow_le_pow_left₀ h0 h1 2
    linarith
  have hprod : (1 - (42691 * (Real.pi / (1431641535 : ℝ)) / 2) ^ 2 / 2)
        * (Real.pi / (1431641535 : ℝ) - (Real.pi / (1431641535 : ℝ)) ^ 3 / 4)
      ≤ Real.cos (42691 * (Real.pi / (1431641535 : ℝ)) / 2)
        * Real.sin (Real.pi / (1431641535 : ℝ)) :=
    mul_le_mul hcosy hsinlo.le (by
      have h3 : (Real.pi / (1431641535 : ℝ)) ^ 3 ≤ (Real.pi / (1431641535 : ℝ)) * 1 := by
        have h1 : (Real.pi / (1431641535 : ℝ)) ^ 2 ≤ 1 := by
          have := pow_le_pow_left₀ ha0.le (show Real.pi / (1431641535 : ℝ) ≤ 1 by linarith) 2
          linarith
        calc (Real.pi / (1431641535 : ℝ)) ^ 3
            = (Real.pi / (1431641535 : ℝ)) * (Real.pi / (1431641535 : ℝ)) ^ 2 := by ring
          _ ≤ (Real.pi / (1431641535 : ℝ)) * 1 := mul_le_mul_of_nonneg_left h1 ha0.le
      linarith) (by linarith)
  -- the height of an odd polygon
  have hodd : ¬ Even (1431641535 : Int) := by decide
  have hH : (makePolygon (Cmath.mk Real.pi Real.cos Real.sin) 1431641535 (1 : ℝ)).getHeight
      = (1 + Real.cos (Real.pi / (1431641535 : ℝ)))
          / (2 * Real.sin (Real.pi / (1431641535 : ℝ))) := by
    rw [getHeight_makePolygon, if_neg hodd, one_mul, hcI]
  rw [hk, hH]
  intro hle
  have hW : (Finset.sum (Finset.range (1073741824 + 357899710)) fun i =>
        (Polygon.mk 1431641535 (1 : ℝ)).next_y (Cmath.mk Real.pi Real.cos Real.sin) (i : Int))
      ≤ (1 + Real.cos (Real.pi / (1431641535 : ℝ)))
          / (2 * Real.sin (Real.pi / (1431641535 : ℝ))) := by
    linarith
  rw [le_div_iff₀ (by linarith)] at hW
  linarith

/-! ## Balance of `gsave` and `grestore` -/

/-- The characters of a concatenation. -/
theorem chars_append {α : Type} (t1 t2 : Text α) :
    Text.chars (t1 ++ t2) = Text.chars t1 ++ Text.chars t2 := by
  induction t1 with
  | nil => rfl
  | cons p ps ih =>
    cases p with
    | lit s => simp [Text.chars, ih]
    | num x => simp [Text.chars, ih]

/-- White space ends the word in progress: the tokens before it and after it
are read independently. -/
theorem tokensFrom_append_white (c : Option Char) (hc : isWhite c = true)
    (A B cur : List (Option Char)) :
    tokensFrom cur (A ++ c :: B) = tokensFrom cur A ++ tokensFrom [] B := by
  induction A generalizing cur with
  | nil => simp [tokensFrom, hc]
  | cons a as ih =>
    by_cases ha : isWhite a = true
    · simp [tokensFrom, ha, ih, List.append_assoc]
    · simp [tokensFrom, ha, ih]

/-- After a sequence that is empty or ends in white space the tokens of what
follows are read independently. -/
theorem tokensFrom_append_of_endsClean (X Y : List (Option Char)) (hX : endsClean X = true) :
    tokensFrom [] (X ++ Y) = tokensFrom [] X ++ tokensFrom [] Y := by
  unfold endsClean at hX
  cases hlast : X.getLast? with
  | none =>
    have : X = [] := List.getLast?_eq_none_iff.mp hlast
    subst this
    simp [tokensFrom, endWord]
  | some c =>
    rw [hlast] at hX
    obtain ⟨A, rfl⟩ := List.getLast?_eq_some_iff.mp hlast
    have h1 := tokensFrom_append_white c hX A Y []
    have h2 := tokensFrom_append_white c hX A [] []
    simp only [List.append_assoc, List.singleton_append]
    rw [h1, h2]
    simp [tokensFrom, endWord]

/-- A concatenation of sequences that end in white space ends in white
space. -/
theorem endsClean_append (X Y : List (Option Char)) (hX : endsClean X = true)
    (hY : endsClean Y = true) : endsClean (X ++ Y) = true := by
  unfold endsClean at *
  rw [List.getLast?_append]
  cases hy : Y.getLast? with
  | none => simpa [hy] using hX
  | some c => simpa [hy] using hY

/-- The empty token sequence is balanced. -/
theorem saveBalanced_nil : SaveBalanced [] := by
  constructor
  · rfl
  · intro k
    simp

/-- Balanced sequences concatenate to a balanced sequence. -/
theorem saveBalanced_append (A B : List (List (Option Char))) (hA : SaveBalanced A) (hB : SaveBalanced B) :
    SaveBalanced (A ++ B) := by
  obtain ⟨hA1, hA2⟩ := hA
  obtain ⟨hB1, hB2⟩ := hB
  constructor
  · rw [List.count_append, List.count_append, hA1, hB1]
  · intro k
    rw [List.take_append_eq_append_take, List.count_append, List.count_append]
    exact Nat.add_le_add (hA2 k) (hB2 (k - A.length))

/-- A sequence that holds neither operator is balanced. -/
theorem saveBalanced_of_neutral (N : List (List (Option Char))) (h1 : N.count gsaveWord = 0)
    (h2 : N.count grestoreWord = 0) : SaveBalanced N := by
  constructor
  · rw [h1, h2]
  · intro k
    have : (N.take k).count grestoreWord ≤ N.count grestoreWord :=
      (List.take_sublist k N).count_le _
    omega

/-- A balanced sequence between a `gsave` and a `grestore` is balanced. -/
theorem saveBalanced_wrap (M : List (List (Option Char))) (hM : SaveBalanced M) :
    SaveBalanced (gsaveWord :: (M ++ [grestoreWord])) := by
  obtain ⟨hM1, hM2⟩ := hM
  have hne : (grestoreWord == gsaveWord) = false := by decide
  have hne' : (gsaveWord == grestoreWord) = false := by decide
  constructor
  · simp [List.count_cons, List.count_append, hne, hne', hM1]
  · intro k
    cases k with
    | zero => simp
    | succ j =>
      rw [List.take_succ_cons, List.take_append_eq_append_take]
      simp only [List.count_cons, List.count_append, hne', beq_self_eq_true, if_true]
      have h1 := hM2 j
      have h2 : (List.take (j - M.length) [grestoreWord]).count grestoreWord ≤ 1 := by
        have := (List.take_sublist (j - M.length) [grestoreWord]).count_le grestoreWord
        simpa using this
      have h3 : (List.take (j - M.length) [grestoreWord]).count gsaveWord = 0 := by
        have := (List.take_sublist (j - M.length) [grestoreWord]).count_le gsaveWord
        simpa [List.count_cons, hne] using this
      simp only [if_false, Bool.false_eq_true] at *
      omega

/-- The tokens of a concatenation whose first part is empty or ends in white
space. -/
theorem tokens_append {α : Type} (t1 t2 : Text α) (h : endsClean t1.chars = true) :
    Text.tokens (t1 ++ t2) = Text.tokens t1 ++ Text.tokens t2 := by
  unfold Text.tokens
  rw [chars_append, tokensFrom_append_of_endsClean _ _ h]

/-- A text made of an opening whose only operator is a leading `gsave`, a
balanced middle and a closing whose only operator is a final `grestore`,
each part empty or ending in white space, ends in white space and is
balanced. -/
theorem wrapped_text_balanced {α : Type} (opening mid closing : Text α)
    (No Nc : List (List (Option Char)))
    (ho : endsClean opening.chars = true) (hm : endsClean mid.chars = true)
    (hc : endsClean closing.chars = true)
    (hto : opening.tokens = gsaveWord :: No) (htc : closing.tokens = Nc ++ [grestoreWord])
    (hNo : No.count gsaveWord = 0 ∧ No.count grestoreWord = 0)
    (hNc : Nc.count gsaveWord = 0 ∧ Nc.count grestoreWord = 0)
    (hmid : SaveBalanced mid.tokens) :
    endsClean (opening ++ mid ++ closing).chars = true
    ∧ SaveBalanced (opening ++ mid ++ closing).tokens := by
  have hom : endsClean (opening ++ mid).chars = true := by
    rw [chars_append]
    exact endsClean_append _ _ ho hm
  constructor
  · rw [chars_append]
    exact endsClean_append _ _ hom hc
  · rw [tokens_append _ _ hom, tokens_append _ _ ho, hto, htc]
    have hshape : gsaveWord :: No ++ mid.tokens ++ (Nc ++ [grestoreWord])
        = gsaveWord :: ((No ++ mid.tokens ++ Nc) ++ [grestoreWord]) := by
      simp [List.append_assoc]
    rw [hshape]
    apply saveBalanced_wrap
    apply saveBalanced_append
    · apply saveBalanced_append
      · exact saveBalanced_of_neutral No hNo.1 hNo.2
      · exact hmid
    · exact saveBalanced_of_neutral Nc hNc.1 hNc.2

/-- A run of `rlineto` segments ends in white space and holds neither
operator. -/
theorem segments_clean_neutral {α β : Type} (fx fy : β → α) (l : List β) :
    endsClean (Text.chars (l.flatMap fun i =>
        [Piece.num (fx i), Piece.lit " ", Piece.num (fy i), Piece.lit " rlineto\n"])) = true
    ∧ (Text.tokens (l.flatMap fun i =>
        [Piece.num (fx i), Piece.lit " ", Piece.num (fy i), Piece.lit " rlineto\n"])).count
          gsaveWord = 0
    ∧ (Text.tokens (l.flatMap fun i =>
        [Piece.num (fx i), Piece.lit " ", Piece.num (fy i), Piece.lit " rlineto\n"])).count
          grestoreWord = 0 := by
  induction l with
  | nil => exact ⟨rfl, rfl, rfl⟩
  | cons x xs ih =>
    obtain ⟨h1, h2, h3⟩ := ih
    have hb : endsClean (Text.chars
        ([Piece.num (fx x), Piece.lit " ", Piece.num (fy x), Piece.lit " rlineto\n"] : Text α))
        = true := rfl
    rw [List.flatMap_cons]
    refine ⟨?_, ?_, ?_⟩
    · rw [chars_append]
      exact endsClean_append _ _ hb h1
    · rw [tokens_append _ _ hb, List.count_append, h2]
      rfl
    · rw [tokens_append _ _ hb, List.count_append, h3]
      rfl

/-- The text of a compound shape is one `gsave` and one `grestore`. -/
theorem compound_text_balanced {α : Type} :
    endsClean (Text.chars ([Piece.lit "gsave\n", Piece.lit "grestore\n"] : Text α)) = true
    ∧ SaveBalanced (Text.tokens ([Piece.lit "gsave\n", Piece.lit "grestore\n"] : Text α)) :=
  wrapped_text_balanced [Piece.lit "gsave\n"] [] [Piece.lit "grestore\n"] [] []
    rfl rfl rfl rfl rfl ⟨rfl, rfl⟩ ⟨rfl, rfl⟩ saveBalanced_nil

/-- The text of every shape tree is empty or ends in white space, and its
saves and restores are balanced. -/
theorem shapeTree_text_balanced {α : Type} [LinearOrderedField α] (m : Cmath α)
    (s : ShapePtr α) (h : ShapeTree m s) :
    endsClean s.getPostScript.chars = true ∧ SaveBalanced s.getPostScript.tokens := by
  induction h with
  | circle r =>
    exact wrapped_text_balanced [Piece.lit "gsave currentpoint translate newpath 0 0 "] []
      [Piece.num r, Piece.lit " 0 360 arc closepath stroke grestore\n"]
      (Text.tokens
        ([Piece.lit "gsave currentpoint translate newpath 0 0 "] : Text α)).tail
      (Text.tokens
        ([Piece.num r, Piece.lit " 0 360 arc closepath stroke grestore\n"] : Text α)).dropLast
      rfl rfl rfl rfl rfl ⟨rfl, rfl⟩ ⟨rfl, rfl⟩ saveBalanced_nil
  | rectangle w h =>
    exact wrapped_text_balanced [Piece.lit "gsave\n"] []
      [Piece.num (-w / 2), Piece.lit " ", Piece.num (-h / 2), Piece.lit " rmoveto\n",
        Piece.num w, Piece.lit " 0 rlineto\n", Piece.lit " 0 ", Piece.num h,
        Piece.lit " rlineto\n", Piece.lit "-", Piece.num w, Piece.lit " 0 rlineto\n",
        Piece.lit "closepath\nstroke\ngrestore\n"]
      []
      (Text.tokens
        ([Piece.num (-w / 2), Piece.lit " ", Piece.num (-h / 2), Piece.lit " rmoveto\n",
          Piece.num w, Piece.lit " 0 rlineto\n", Piece.lit " 0 ", Piece.num h,
          Piece.lit " rlineto\n", Piece.lit "-", Piece.num w, Piece.lit " 0 rlineto\n",
          Piece.lit "closepath\nstroke\ngrestore\n"] : Text α)).dropLast
      rfl rfl rfl rfl rfl ⟨rfl, rfl⟩ ⟨rfl, rfl⟩ saveBalanced_nil
  | spacer w h => exact ⟨rfl, saveBalanced_nil⟩
  | polygon n side =>
    rw [getPostScript_makePolygon]
    obtain ⟨hs1, hs2, hs3⟩ := segments_clean_neutral
      (fun i : ℕ => (Polygon.mk n side).next_x m (i : Int))
      (fun i : ℕ => (Polygon.mk n side).next_y m (i : Int))
      (List.range (wrapInt (n - 1)).toNat)
    exact wrapped_text_balanced
      [Piece.lit "gsave\n", Piece.num (-side / 2), Piece.lit " ",
        Piece.num (-(makePolygon m n side).getHeight / 2), Piece.lit " rmoveto\n"]
      _ [Piece.lit "closepath\nstroke\ngrestore\n"]
      (Text.tokens
        ([Piece.lit "gsave\n", Piece.num (-side / 2), Piece.lit " ",
          Piece.num (-(makePolygon m n side).getHeight / 2), Piece.lit " rmoveto\n"] :
            Text α)).tail
      (Text.tokens ([Piece.lit "closepath\nstroke\ngrestore\n"] : Text α)).dropLast
      rfl hs1 rfl rfl rfl ⟨rfl, rfl⟩ ⟨rfl, rfl⟩ (saveBalanced_of_neutral _ hs2 hs3)
  | scaled c x y _ _ => exact ⟨rfl, saveBalanced_nil⟩
  | rotated c r _ ih =>
    cases r
    · exact wrapped_text_balanced
        [Piece.lit "gsave\n", Piece.lit "90", Piece.lit " rotate\n"] c.getPostScript
        [Piece.lit "grestore\n"]
        (Text.tokens
          ([Piece.lit "gsave\n", Piece.lit "90", Piece.lit " rotate\n"] : Text α)).tail
        [] rfl ih.1 rfl rfl rfl ⟨rfl, rfl⟩ ⟨rfl, rfl⟩ ih.2
    · exact wrapped_text_balanced
        [Piece.lit "gsave\n", Piece.lit "180", Piece.lit " rotate\n"] c.getPostScript
        [Piece.lit "grestore\n"]
        (Text.tokens
          ([Piece.lit "gsave\n", Piece.lit "180", Piece.lit " rotate\n"] : Text α)).tail
        [] rfl ih.1 rfl rfl rfl ⟨rfl, rfl⟩ ⟨rfl, rfl⟩ ih.2
    · exact wrapped_text_balanced
        [Piece.lit "gsave\n", Piece.lit "270", Piece.lit " rotate\n"] c.getPostScript
        [Piece.lit "grestore\n"]
        (Text.tokens
          ([Piece.lit "gsave\n", Piece.lit "270", Piece.lit " rotate\n"] : Text α)).tail
        [] rfl ih.1 rfl rfl rfl ⟨rfl, rfl⟩ ⟨rfl, rfl⟩ ih.2
  | layered shapes _ _ =>
    rw [getPostScript_makeLayeredShape]
    exact compound_text_balanced
  | vertical shapes _ _ =>
    rw [getPostScript_makeVerticalShape]
    exact compound_text_balanced
  | horizontal shapes _ _ =>
    rw [getPostScript_makeHorizontalShape]
    exact compound_text_balanced

/-- C20: for every shape tree, of any nesting of circles, rectangles,
spacers, polygons, scaled, rotated, layered, vertical and horizontal shapes,
the tokens of `getPostScript()` hold exactly as many `gsave` as `grestore`,
and no initial part of them holds more `grestore` than `gsave`; a printed
number is part of a token that is neither operator. -/
theorem C20_gsave_grestore_balanced {α : Type} [LinearOrderedField α] (m : Cmath α)
    (s : ShapePtr α) (h : ShapeTree m s) :
    s.getPostScript.tokens.count gsaveWord = s.getPostScript.tokens.count grestoreWord
    ∧ ∀ p, p <+: s.getPostScript.tokens → p.count grestoreWord ≤ p.count gsaveWord := by
  obtain ⟨_, hcount, htake⟩ := shapeTree_text_balanced m s h
  refine ⟨hcount, ?_⟩
  intro p hp
  rw [List.prefix_iff_eq_take.mp hp]
  exact htake p.length

/-- C20 at `RotatedShape(RotatedShape(Circle(1), R180), R90)`, a shape tree
whose text nests three saves. -/
theorem C20_gsave_grestore_balanced_witness :
    ShapeTree (Cmath.mk Real.pi Real.cos Real.sin)
      (makeRotatedShape (makeRotatedShape (makeCircle (1 : ℝ)) Rot.R180) Rot.R90)
    ∧ (makeRotatedShape (makeRotatedShape (makeCircle (1 : ℝ)) Rot.R180)
          Rot.R90).getPostScript.tokens.count gsaveWord
      = (makeRotatedShape (makeRotatedShape (makeCircle (1 : ℝ)) Rot.R180)
          Rot.R90).getPostScript.tokens.count grestoreWord
    ∧ ∀ p, p <+: (makeRotatedShape (makeRotatedShape (makeCircle (1 : ℝ)) Rot.R180)
          Rot.R90).getPostScript.tokens → p.count grestoreWord ≤ p.count gsaveWord := by
  have hP : ShapeTree (Cmath.mk Real.pi Real.cos Real.sin)
      (makeRotatedShape (makeRotatedShape (makeCircle (1 : ℝ)) Rot.R180) Rot.R90) :=
    ShapeTree.rotated _ _ (ShapeTree.rotated _ _ (ShapeTree.circle 1))
  exact ⟨hP, C20_gsave_grestore_balanced _ _ hP⟩

end CS372CPS
